import Mathlib

/-!
# msbq-client-api: the client transport layer (`client.go`)

A shallow embedding of `client.go` and of the parts of the Go standard library
that decide its observable behaviour (`unicode/utf8`, `encoding/base64`,
`encoding/json`, `errors.Is`), followed by theorems about connection bootstrap,
channel creation, the stream registry and the two wire messages.

Conventions of the embedding:
* a Go `string` and a Go `[]byte` are sequences of bytes; a byte is a natural
  number below 256 (`List Nat`); a `[]byte` that may be `nil` is an `Option`;
* an `error` is an `Option GoError` (`none` is `nil`);
* the mutable process state (heap of `net.Conn` values, `STREAM_POOL`, standard
  output, the logger's output) is threaded explicitly as a `World`;
* bit operations of the library are written with `/` and `%` on naturals.
-/

set_option autoImplicit false

namespace Msbq

/-! ## Strings and bytes -/

/-- A Go `string`: an immutable sequence of bytes (not necessarily valid UTF-8). -/
abbrev GoString := List Nat

/-- Model of `utf8.RuneError`, the replacement character U+FFFD. -/
def RuneError : Nat := 0xFFFD

/-- Model of `utf8.AppendRune` / `utf8.EncodeRune`: the UTF-8 encoding of a rune; runes out of
range and surrogate halves are encoded as `RuneError`. -/
def AppendRune (r : Nat) : List Nat :=
  if r ≤ 0x7F then [r]
  else if r ≤ 0x7FF then [0xC0 + r / 64, 0x80 + r % 64]
  else if r > 0x10FFFF ∨ (0xD800 ≤ r ∧ r ≤ 0xDFFF) then [0xEF, 0xBF, 0xBD]
  else if r ≤ 0xFFFF then [0xE0 + r / 4096, 0x80 + r / 64 % 64, 0x80 + r % 64]
  else [0xF0 + r / 262144, 0x80 + r / 4096 % 64, 0x80 + r / 64 % 64, 0x80 + r % 64]

/-- The bytes of a Go string literal (UTF-8 of the source text). -/
def goString (s : String) : GoString :=
  (s.data.map (fun c => AppendRune c.toNat)).flatten

/-- The table `first` of `unicode/utf8`: information about the first byte of a
UTF-8 sequence (`0xF0` ASCII, `0xF1` invalid, otherwise accept-range index in the
high nibble and size in the low 3 bits). -/
def first (b : Nat) : Nat :=
  if b < 0x80 then 0xF0
  else if b < 0xC2 then 0xF1
  else if b < 0xE0 then 0x02
  else if b = 0xE0 then 0x13
  else if b < 0xED then 0x03
  else if b = 0xED then 0x23
  else if b < 0xF0 then 0x03
  else if b = 0xF0 then 0x34
  else if b < 0xF4 then 0x04
  else if b = 0xF4 then 0x44
  else 0xF1

/-- The table `acceptRanges` of `unicode/utf8`: allowed range of the second byte. -/
def acceptRanges (i : Nat) : Nat × Nat :=
  match i with
  | 0 => (0x80, 0xBF)
  | 1 => (0xA0, 0xBF)
  | 2 => (0x80, 0x9F)
  | 3 => (0x90, 0xBF)
  | 4 => (0x80, 0x8F)
  | _ => (0, 0)

/-- Model of `utf8.DecodeRune` / `utf8.DecodeRuneInString`: the first rune of `p` and its width
in bytes; `(RuneError, 0)` on empty input and `(RuneError, 1)` on an invalid encoding. -/
def DecodeRune (p : List Nat) : Nat × Nat :=
  match p with
  | [] => (RuneError, 0)
  | p0 :: _ =>
    let x := first p0
    if x ≥ 0xF0 then
      (if x = 0xF0 then (p0, 1) else (RuneError, 1))
    else
      let sz := x % 8
      let accept := acceptRanges (x / 16)
      if p.length < sz then (RuneError, 1)
      else
        let b1 := p.getD 1 0
        if b1 < accept.1 ∨ accept.2 < b1 then (RuneError, 1)
        else if sz ≤ 2 then ((p0 % 32) * 64 + b1 % 64, 2)
        else
          let b2 := p.getD 2 0
          if b2 < 0x80 ∨ 0xBF < b2 then (RuneError, 1)
          else if sz ≤ 3 then ((p0 % 16) * 4096 + (b1 % 64) * 64 + b2 % 64, 3)
          else
            let b3 := p.getD 3 0
            if b3 < 0x80 ∨ 0xBF < b3 then (RuneError, 1)
            else ((p0 % 8) * 262144 + (b1 % 64) * 4096 + (b2 % 64) * 64 + b3 % 64, 4)

/-- The loop of `utf8.ValidString`, one iteration per rune; `fuel` bounds the
number of iterations (each consumes at least one byte). -/
def validLoop : Nat → List Nat → Bool
  | 0, s => s.isEmpty
  | _ + 1, [] => true
  | fuel + 1, b :: rest =>
    if b < 0x80 then validLoop fuel rest
    else
      let d := DecodeRune (b :: rest)
      if d.1 = RuneError ∧ d.2 = 1 then false
      else validLoop fuel ((b :: rest).drop d.2)

/-- Model of `utf8.ValidString`: the string consists entirely of valid UTF-8 encoded runes. -/
def ValidString (s : GoString) : Bool := validLoop s.length s

/-! ## encoding/base64 (`StdEncoding`) -/

/-- The alphabet of `base64.StdEncoding`. -/
def encodeStd : List Nat :=
  goString "ABCDEFGHIJKLMNOPQRSTUVWXYZabcdefghijklmnopqrstuvwxyz0123456789+/"

/-- The padding character `=` of `base64.StdEncoding`. -/
def StdPadding : Nat := 61

/-- Model of `base64.StdEncoding.AppendEncode`: three source bytes become four characters;
a remainder of one or two bytes is padded with `=`. -/
def base64Encode : List Nat → List Nat
  | [] => []
  | [a] =>
    let val := a * 65536
    [encodeStd.getD (val / 262144 % 64) 0, encodeStd.getD (val / 4096 % 64) 0,
      StdPadding, StdPadding]
  | [a, b] =>
    let val := a * 65536 + b * 256
    [encodeStd.getD (val / 262144 % 64) 0, encodeStd.getD (val / 4096 % 64) 0,
      encodeStd.getD (val / 64 % 64) 0, StdPadding]
  | a :: b :: c :: rest =>
    let val := a * 65536 + b * 256 + c
    encodeStd.getD (val / 262144 % 64) 0 :: encodeStd.getD (val / 4096 % 64) 0 ::
      encodeStd.getD (val / 64 % 64) 0 :: encodeStd.getD (val % 64) 0 :: base64Encode rest

/-! ## encoding/json: the encoder -/

/-- The digits used by `encoding/json` for `\u00XY` escapes. -/
def hex : List Nat := goString "0123456789abcdef"

/-- The table `htmlSafeSet` of `encoding/json`: ASCII bytes that are written
without escaping when HTML escaping is on (the default of `json.Marshal`). -/
def htmlSafeSet (b : Nat) : Bool :=
  decide (0x20 ≤ b ∧ b < 0x80 ∧ b ≠ 0x22 ∧ b ≠ 0x26 ∧ b ≠ 0x3C ∧ b ≠ 0x3E ∧ b ≠ 0x5C)

/-- The `switch b` of `appendString` for an ASCII byte that is not in `htmlSafeSet`. -/
def escapeByte (b : Nat) : List Nat :=
  if b = 0x5C ∨ b = 0x22 then [0x5C, b]
  else if b = 0x08 then [0x5C, 0x62]
  else if b = 0x0C then [0x5C, 0x66]
  else if b = 0x0A then [0x5C, 0x6E]
  else if b = 0x0D then [0x5C, 0x72]
  else if b = 0x09 then [0x5C, 0x74]
  else [0x5C, 0x75, 0x30, 0x30, hex.getD (b / 16) 0, hex.getD (b % 16) 0]

/-- The loop of `appendString` of `encoding/json` (with `escapeHTML` on), one
iteration per byte or rune: safe ASCII is copied, other ASCII is escaped, an
invalid UTF-8 byte becomes the escape of U+FFFD, U+2028 and U+2029 are escaped, every other
rune is copied. `fuel` bounds the iterations. -/
def appendStringLoop : Nat → List Nat → List Nat
  | 0, _ => []
  | _ + 1, [] => []
  | fuel + 1, b :: rest =>
    if b < 0x80 then
      if htmlSafeSet b then b :: appendStringLoop fuel rest
      else escapeByte b ++ appendStringLoop fuel rest
    else
      let d := DecodeRune (b :: rest)
      if d.1 = RuneError ∧ d.2 = 1 then
        [0x5C, 0x75, 0x66, 0x66, 0x66, 0x64] ++ appendStringLoop fuel rest
      else if d.1 = 0x2028 ∨ d.1 = 0x2029 then
        [0x5C, 0x75, 0x32, 0x30, 0x32, hex.getD (d.1 % 16) 0]
          ++ appendStringLoop fuel ((b :: rest).drop d.2)
      else (b :: rest).take d.2 ++ appendStringLoop fuel ((b :: rest).drop d.2)

/-- Model of `appendString` of `encoding/json`: a string as a quoted JSON string. -/
def appendString (src : GoString) : List Nat :=
  [0x22] ++ appendStringLoop src.length src ++ [0x22]

/-- Model of `encodeByteSlice` of `encoding/json`: a nil slice is `null`, any other
`[]byte` is a quoted base64 string. -/
def encodeByteSlice (v : Option (List Nat)) : List Nat :=
  match v with
  | none => goString "null"
  | some s => [0x22] ++ base64Encode s ++ [0x22]

/-- Model of `boolEncoder` of `encoding/json`. -/
def boolEncoder (b : Bool) : List Nat :=
  if b then goString "true" else goString "false"

/-! ## encoding/base64 and encoding/json: the decoders -/

/-- The table `decodeMap` that `base64.NewEncoding` builds from the alphabet:
the position of a character in the alphabet, `0xFF` for any other byte. -/
def decodeMap (c : Nat) : Nat :=
  if c ∈ encodeStd then encodeStd.indexOf c else 0xFF

/-- Decoding of padded standard base64: quanta of four characters, the last one
possibly padded with one or two `=`. -/
def base64Decode : List Nat → Option (List Nat)
  | [] => some []
  | c0 :: c1 :: c2 :: c3 :: rest =>
    let d0 := decodeMap c0
    let d1 := decodeMap c1
    if d0 = 0xFF ∨ d1 = 0xFF then none
    else if c2 = StdPadding then
      if c3 = StdPadding ∧ rest = [] then
        some [(d0 * 262144 + d1 * 4096) / 65536 % 256]
      else none
    else
      let d2 := decodeMap c2
      if d2 = 0xFF then none
      else if c3 = StdPadding then
        if rest = [] then
          let val := d0 * 262144 + d1 * 4096 + d2 * 64
          some [val / 65536 % 256, val / 256 % 256]
        else none
      else
        let d3 := decodeMap c3
        if d3 = 0xFF then none
        else
          let val := d0 * 262144 + d1 * 4096 + d2 * 64 + d3
          (base64Decode rest).map
            (fun t => val / 65536 % 256 :: val / 256 % 256 :: val % 256 :: t)
  | _ => none

/-- The value of one hexadecimal digit, as in `getu4`. -/
def hexVal (c : Nat) : Option Nat :=
  if 0x30 ≤ c ∧ c ≤ 0x39 then some (c - 0x30)
  else if 0x61 ≤ c ∧ c ≤ 0x66 then some (c - 0x61 + 10)
  else if 0x41 ≤ c ∧ c ≤ 0x46 then some (c - 0x41 + 10)
  else none

/-- Model of `getu4` of `encoding/json`: the rune of a `\uXXXX` escape at the start of `s`
(`none` where the Go function returns -1). -/
def getu4 (s : List Nat) : Option Nat :=
  match s with
  | e0 :: e1 :: h0 :: h1 :: h2 :: h3 :: _ =>
    if e0 = 0x5C ∧ e1 = 0x75 then
      match hexVal h0, hexVal h1, hexVal h2, hexVal h3 with
      | some a, some b, some c, some d => some (((a * 16 + b) * 16 + c) * 16 + d)
      | _, _, _, _ => none
    else none
  | _ => none

/-- Model of `utf16.DecodeRune`: the rune of a surrogate pair, U+FFFD if the pair is not valid. -/
def utf16DecodeRune (r1 : Nat) (r2 : Option Nat) : Nat :=
  match r2 with
  | some r2 =>
    if 0xD800 ≤ r1 ∧ r1 < 0xDC00 ∧ 0xDC00 ≤ r2 ∧ r2 < 0xE000 then
      (r1 - 0xD800) * 1024 + (r2 - 0xDC00) + 0x10000
    else RuneError
  | none => RuneError

/-- The loop of `unquoteBytes` of `encoding/json`, run from the byte after the
opening quote up to the closing quote: the text of the string and the input that
follows the closing quote. `none` when the literal is malformed or unterminated. -/
def unquoteLoop : Nat → List Nat → Option (GoString × List Nat)
  | 0, _ => none
  | _ + 1, [] => none
  | fuel + 1, c :: s =>
    if c = 0x22 then some ([], s)
    else if c = 0x5C then
      match s with
      | [] => none
      | e :: s1 =>
        if e = 0x22 ∨ e = 0x5C ∨ e = 0x2F ∨ e = 0x27 then
          (unquoteLoop fuel s1).map (fun r => (e :: r.1, r.2))
        else if e = 0x62 then (unquoteLoop fuel s1).map (fun r => (0x08 :: r.1, r.2))
        else if e = 0x66 then (unquoteLoop fuel s1).map (fun r => (0x0C :: r.1, r.2))
        else if e = 0x6E then (unquoteLoop fuel s1).map (fun r => (0x0A :: r.1, r.2))
        else if e = 0x72 then (unquoteLoop fuel s1).map (fun r => (0x0D :: r.1, r.2))
        else if e = 0x74 then (unquoteLoop fuel s1).map (fun r => (0x09 :: r.1, r.2))
        else if e = 0x75 then
          match getu4 (c :: s) with
          | none => none
          | some rr =>
            if 0xD800 ≤ rr ∧ rr < 0xE000 then
              let dec := utf16DecodeRune rr (getu4 (s1.drop 4))
              if dec ≠ RuneError then
                (unquoteLoop fuel (s1.drop 10)).map (fun r => (AppendRune dec ++ r.1, r.2))
              else (unquoteLoop fuel (s1.drop 4)).map (fun r => (AppendRune RuneError ++ r.1, r.2))
            else (unquoteLoop fuel (s1.drop 4)).map (fun r => (AppendRune rr ++ r.1, r.2))
        else none
    else if c < 0x20 then none
    else if c < 0x80 then (unquoteLoop fuel s).map (fun r => (c :: r.1, r.2))
    else
      let d := DecodeRune (c :: s)
      (unquoteLoop fuel ((c :: s).drop d.2)).map (fun r => (AppendRune d.1 ++ r.1, r.2))

/-- A JSON string literal whose opening quote has been read. -/
def unquote (s : List Nat) : Option (GoString × List Nat) := unquoteLoop s.length s

/-- The JSON values that occur in the two wire messages. -/
inductive JValue where
  | str (s : GoString)
  | bool (b : Bool)
  | null
  deriving DecidableEq, Repr

/-- Model of `isSpace` of the `encoding/json` scanner. -/
def isSpace (c : Nat) : Bool := decide (c = 0x20 ∨ c = 0x09 ∨ c = 0x0D ∨ c = 0x0A)

/-- Skip insignificant whitespace. -/
def skipSpace (s : List Nat) : List Nat := s.dropWhile isSpace

/-- A JSON value that is a string, `true`, `false` or `null`, and the input after it. -/
def parseValue (s : List Nat) : Option (JValue × List Nat) :=
  match s with
  | [] => none
  | c :: t =>
    if c = 0x22 then (unquote t).map (fun r => (JValue.str r.1, r.2))
    else if s.take 4 = goString "true" then some (JValue.bool true, s.drop 4)
    else if s.take 5 = goString "false" then some (JValue.bool false, s.drop 5)
    else if s.take 4 = goString "null" then some (JValue.null, s.drop 4)
    else none

/-- The members of a JSON object from its first key on, up to and including the
closing brace: the key/value pairs in order and the input after the brace. -/
def parseMembers : Nat → List Nat → Option (List (GoString × JValue) × List Nat)
  | 0, _ => none
  | fuel + 1, s =>
    match s with
    | [] => none
    | c :: s1 =>
      if c = 0x22 then
        match unquote s1 with
        | none => none
        | some (key, s2) =>
          match skipSpace s2 with
          | [] => none
          | colon :: s3 =>
            if colon = 0x3A then
              match parseValue (skipSpace s3) with
              | none => none
              | some (v, s4) =>
                match skipSpace s4 with
                | [] => none
                | sep :: s5 =>
                  if sep = 0x2C then
                    (parseMembers fuel (skipSpace s5)).map (fun r => ((key, v) :: r.1, r.2))
                  else if sep = 0x7D then some ([(key, v)], s5)
                  else none
            else none
      else none

/-- A whole JSON text that is exactly one object (with string, boolean or null
members): its key/value pairs in order. Anything left after the closing brace
other than whitespace makes the text invalid. -/
def parseObject (data : List Nat) : Option (List (GoString × JValue)) :=
  match skipSpace data with
  | [] => none
  | c :: s1 =>
    if c = 0x7B then
      match skipSpace s1 with
      | [] => none
      | c1 :: s2 =>
        if c1 = 0x7D then (if skipSpace s2 = [] then some [] else none)
        else
          match parseMembers data.length (c1 :: s2) with
          | none => none
          | some (ms, rest) => if skipSpace rest = [] then some ms else none
    else none

/-! ## The wire messages of `client.go` -/

/-- The struct `Queue` (its field `Type` is written `Typ`, `Type` being reserved). -/
structure Queue where
  MessageType : GoString
  Name : GoString
  Typ : GoString
  Durable : Bool
  deriving DecidableEq, Repr

/-- The struct `EPMessage` (field `Type` written `Typ`); `Body` is a `[]byte`, `none` being the nil slice. -/
structure EPMessage where
  MessageType : GoString
  Route : GoString
  Typ : GoString
  Body : Option (List Nat)
  deriving DecidableEq, Repr

/-- Result of `json.Marshal` on a `Queue`: the struct encoder writes the exported
fields in declaration order, each as `"name":value`. -/
def MarshalQueue (q : Queue) : List Nat :=
  goString "\x7b" ++ appendString (goString "MessageType") ++ goString ":"
    ++ appendString q.MessageType
    ++ goString "," ++ appendString (goString "Name") ++ goString ":" ++ appendString q.Name
    ++ goString "," ++ appendString (goString "Type") ++ goString ":" ++ appendString q.Typ
    ++ goString "," ++ appendString (goString "Durable") ++ goString ":"
    ++ boolEncoder q.Durable
    ++ goString "\x7d"

/-- Result of `json.Marshal` on an `EPMessage`. -/
def MarshalEPMessage (m : EPMessage) : List Nat :=
  goString "\x7b" ++ appendString (goString "MessageType") ++ goString ":"
    ++ appendString m.MessageType
    ++ goString "," ++ appendString (goString "Route") ++ goString ":" ++ appendString m.Route
    ++ goString "," ++ appendString (goString "Type") ++ goString ":" ++ appendString m.Typ
    ++ goString "," ++ appendString (goString "Body") ++ goString ":"
    ++ encodeByteSlice m.Body
    ++ goString "\x7d"

/-- Store one decoded member into a `Queue`, as `json.Unmarshal` does for a
struct: a key that names no field is ignored, `null` leaves the field as it is,
a value of the wrong JSON type is an error. -/
def Queue.setField (q : Queue) (key : GoString) (v : JValue) : Option Queue :=
  if key = goString "MessageType" then
    match v with
    | .str s => some { q with MessageType := s }
    | .null => some q
    | .bool _ => none
  else if key = goString "Name" then
    match v with
    | .str s => some { q with Name := s }
    | .null => some q
    | .bool _ => none
  else if key = goString "Type" then
    match v with
    | .str s => some { q with Typ := s }
    | .null => some q
    | .bool _ => none
  else if key = goString "Durable" then
    match v with
    | .bool b => some { q with Durable := b }
    | .null => some q
    | .str _ => none
  else some q

/-- Store one decoded member into an `EPMessage`; a string for `Body` is decoded
from base64. -/
def EPMessage.setField (m : EPMessage) (key : GoString) (v : JValue) : Option EPMessage :=
  if key = goString "MessageType" then
    match v with
    | .str s => some { m with MessageType := s }
    | .null => some m
    | .bool _ => none
  else if key = goString "Route" then
    match v with
    | .str s => some { m with Route := s }
    | .null => some m
    | .bool _ => none
  else if key = goString "Type" then
    match v with
    | .str s => some { m with Typ := s }
    | .null => some m
    | .bool _ => none
  else if key = goString "Body" then
    match v with
    | .str s => (base64Decode s).map (fun b => { m with Body := some b })
    | .null => some m
    | .bool _ => none
  else some m

/-- Decoding of a JSON text into a `Queue` (starting from the zero value). -/
def UnmarshalQueue (data : List Nat) : Option Queue :=
  (parseObject data).bind
    (fun ms => ms.foldlM (fun q kv => q.setField kv.1 kv.2)
      ({ MessageType := [], Name := [], Typ := [], Durable := false } : Queue))

/-- Decoding of a JSON text into an `EPMessage` (starting from the zero value). -/
def UnmarshalEPMessage (data : List Nat) : Option EPMessage :=
  (parseObject data).bind
    (fun ms => ms.foldlM (fun m kv => m.setField kv.1 kv.2)
      ({ MessageType := [], Route := [], Typ := [], Body := none } : EPMessage))

/-! ## Errors, the transport and the process state -/

/-- Go error values as far as `client.go` can tell them apart. -/
inductive GoError where
  /-- The sentinel `io.EOF`. -/
  | EOF
  /-- An error made by `errors.New` or by `fmt.Errorf` without `%w`. -/
  | errorString (s : String)
  /-- An error whose `Unwrap` method returns `err` (such as `*net.OpError`). -/
  | wrapError (msg : String) (err : GoError)
  deriving DecidableEq, Repr

/-- The chain walk of `errors.Is` on a non-nil error and a non-nil target. -/
def GoError.is : GoError → GoError → Bool
  | .wrapError msg inner, target =>
    decide (GoError.wrapError msg inner = target) || inner.is target
  | .EOF, target => decide (GoError.EOF = target)
  | .errorString s, target => decide (GoError.errorString s = target)

/-- Model of `errors.Is(err, target)`. -/
def errors.Is (err target : Option GoError) : Bool :=
  match err, target with
  | some e, some t => e.is t
  | none, none => true
  | _, _ => false

/-- The state of one `net.Conn`: the bytes the transport has accepted so far, and
the way its `Write` behaves: `fault = none` is a healthy transport,
`fault = some (n, err)` one whose `Write` accepts at most `n` bytes and reports `err`. -/
structure NetConn where
  wire : List Nat
  fault : Option (Nat × GoError)
  deriving DecidableEq, Repr

/-- Model of `net.Conn.Write(b)`: the transport afterwards, the number of bytes written and
the error. -/
def NetConn.Write (c : NetConn) (b : List Nat) : NetConn × Nat × Option GoError :=
  match c.fault with
  | none => ({ c with wire := c.wire ++ b }, b.length, none)
  | some (n, err) => ({ c with wire := c.wire ++ b.take n }, min n b.length, some err)

/-- The struct `connection`; `conn` is a `*net.Conn`: the address of a transport
in the heap of the `World`, `none` for the nil pointer. -/
structure connection where
  conn : Option Nat
  deriving DecidableEq, Repr

/-- The struct `Channel`. -/
structure Channel where
  StreamID : GoString
  BoundTo : GoString
  conn : Option Nat
  deriving DecidableEq, Repr

/-- The constant `MAX_STREAMS` of `client.go`. -/
def MAX_STREAMS : Nat := 3

/-- The mutable state of the process. `STREAM_POOL` is the package variable of
that name, a Go map kept as a list of entries with distinct keys, in insertion
order; an entry's `*Channel` points to an object nothing else refers to, so the
entry holds the `Channel` itself. -/
structure World where
  conns : List NetConn
  STREAM_POOL : List (GoString × Channel)
  stdout : List GoString
  logger : List GoString
  deriving DecidableEq, Repr

/-- The map index expression `v, exists := m[k]`. -/
def mapIndex (m : List (GoString × Channel)) (k : GoString) : Option Channel :=
  (m.find? (fun e => decide (e.1 = k))).map (fun e => e.2)

/-- The map assignment `m[k] = v`: replaces the entry of an existing key, adds an
entry otherwise. -/
def mapAssign (m : List (GoString × Channel)) (k : GoString) (v : Channel) :
    List (GoString × Channel) :=
  if (mapIndex m k).isSome then m.map (fun e => if e.1 = k then (k, v) else e)
  else m ++ [(k, v)]

/-- The keys of a map. -/
def mapKeys (m : List (GoString × Channel)) : List GoString := m.map (fun e => e.1)

/-- The package `encoding/json` as `client.go` uses it: `json.Marshal` at the two
message types, returning the encoding or an error. -/
structure JSONPackage where
  MarshalQueue : Queue → Except GoError (List Nat)
  MarshalEPMessage : EPMessage → Except GoError (List Nat)

/-- The real `encoding/json`: on these two struct types `json.Marshal` always succeeds. -/
def json : JSONPackage where
  MarshalQueue := fun q => .ok (MarshalQueue q)
  MarshalEPMessage := fun m => .ok (MarshalEPMessage m)

/-- How a call ends: it returns, or it panics (nil pointer dereference). -/
inductive Outcome (α : Type) where
  | returned (v : α)
  | panicked
  deriving DecidableEq, Repr

/-! ## `client.go` -/

/-- The function `connection.CreateChannel` of `client.go`. The result of `uuid.NewString()` is the argument
`newStreamID`. -/
def connection.CreateChannel (c : connection) (newStreamID : GoString) (w : World) :
    (Channel × Option GoError) × World :=
  let ch : Channel := { StreamID := newStreamID, BoundTo := [], conn := c.conn }
  let found := (mapIndex w.STREAM_POOL newStreamID).isSome
  let w1 := if !found then
      { w with STREAM_POOL := mapAssign w.STREAM_POOL newStreamID ch }
    else w
  ((ch, none), w1)

/-- The dereference `*ch.conn`: the address and the transport it points to. -/
def deref (p : Option Nat) (w : World) : Option (Nat × NetConn) :=
  match p with
  | none => none
  | some a => (w.conns[a]?).map (fun c => (a, c))

/-- The state after the transport at address `a` has become `c`. -/
def World.setConn (w : World) (a : Nat) (c : NetConn) : World :=
  { w with conns := w.conns.set a c }

/-- Model of `fmt.Printf(s)`. -/
def World.printf (w : World) (s : GoString) : World := { w with stdout := w.stdout ++ [s] }

/-- Model of `log.Println(s)`. -/
def World.logPrintln (w : World) (s : GoString) : World :=
  { w with logger := w.logger ++ [s] }

/-- The function `Channel.AssertQueue` of `client.go`. -/
def Channel.AssertQueue (lib : JSONPackage) (ch : Channel) (Name Typ : GoString)
    (Durable : Bool) (w : World) : Outcome (GoString × Option GoError) × World :=
  let q : Queue := { Name := Name, MessageType := goString "Queue", Typ := Typ,
                     Durable := Durable }
  match lib.MarshalQueue q with
  | .error err =>
    (.returned ([], some err),
      w.printf (goString "ERROR: Unable to Marshal Queue Message"))
  | .ok b =>
    match deref ch.conn w with
    | none => (.panicked, w)
    | some (a, c) =>
      let r := c.Write b
      let w1 := w.setConn a r.1
      let err := r.2.2
      if errors.Is err (some GoError.EOF) then
        (.returned ([], err), w1.printf (goString "ERROR: connection was closed"))
      else if err ≠ none then
        (.returned ([], err), w1.printf (goString "ERROR: Unable to write to message broker"))
      else (.returned (q.Name, none), w1)

/-- The function `Channel.DeliverMessage` of `client.go`. -/
def Channel.DeliverMessage (lib : JSONPackage) (ch : Channel) (Route : GoString)
    (Message : Option (List Nat)) (QueueType : GoString) (w : World) :
    Outcome (Option GoError) × World :=
  let w0 := w.logPrintln (goString "Delivering Message")
  let emsg : EPMessage := { MessageType := goString "EPMessage", Route := Route,
                            Typ := QueueType, Body := Message }
  match lib.MarshalEPMessage emsg with
  | .error err =>
    (.returned (some err), w0.logPrintln (goString "ERROR: Unable to Marshal EPMessage"))
  | .ok b =>
    match deref ch.conn w0 with
    | none => (.panicked, w0)
    | some (a, c) =>
      let r := c.Write b
      let w1 := w0.setConn a r.1
      let err := r.2.2
      if errors.Is err (some GoError.EOF) then
        (.returned err, w1.printf (goString "ERROR: connection was closed"))
      else if err ≠ none then
        (.returned err, w1.printf (goString "ERROR: Unable to write to message broker"))
      else (.returned none, w1)

/-- The function `Channel.Consume` of `client.go`: an empty body. -/
def Channel.Consume (_ch : Channel) (w : World) : World := w

/-- The function `Channel.CloseChannel` of `client.go`: an empty body. -/
def Channel.CloseChannel (_ch : Channel) (w : World) : World := w

/-- A sequence of `CreateChannel` calls on one connection, the n-th one generating
the n-th identifier of `ids`: the channels returned, in order, and the final state. -/
def createChannels (c : connection) : List GoString → World → List Channel × World
  | [], w => ([], w)
  | newStreamID :: ids, w =>
    let r := c.CreateChannel newStreamID w
    let rs := createChannels c ids r.2
    (r.1.1 :: rs.1, rs.2)

/-- One call of the channel API. -/
inductive Call where
  | CreateChannel (c : connection) (newStreamID : GoString)
  | AssertQueue (ch : Channel) (Name Typ : GoString) (Durable : Bool)
  | DeliverMessage (ch : Channel) (Route : GoString) (Message : Option (List Nat))
      (QueueType : GoString)
  | Consume (ch : Channel)
  | CloseChannel (ch : Channel)

/-- The state after a call. -/
def Call.run (lib : JSONPackage) (call : Call) (w : World) : World :=
  match call with
  | .CreateChannel c newStreamID => (c.CreateChannel newStreamID w).2
  | .AssertQueue ch Name Typ Durable => (ch.AssertQueue lib Name Typ Durable w).2
  | .DeliverMessage ch Route Message QueueType =>
    (ch.DeliverMessage lib Route Message QueueType w).2
  | .Consume ch => ch.Consume w
  | .CloseChannel ch => ch.CloseChannel w

/-! ## Connection bootstrap: `Connect` and the goroutine `connectTCP` -/

/-- The network as `net.Dial("tcp", address)` sees it: for each address the
transport the dial establishes, or the error of the dial. -/
abbrev Network := GoString → Except GoError NetConn

/-- Where the goroutine running `connectTCP` stands. -/
inductive TaskPC where
  /-- About to call `net.Dial`. -/
  | atDial
  /-- Blocked in `stopped <- 0`. -/
  | atSendStopped
  /-- The dial has succeeded; about to call `log.Printf`. -/
  | atLog (conn : NetConn)
  /-- Blocked in `c <- conn`. -/
  | atSendConn (conn : NetConn)
  /-- The function has returned. -/
  | finished
  deriving DecidableEq, Repr

/-- Where the caller of `Connect` stands. -/
inductive CallerPC where
  /-- Both channels are made; about to run `go connectTCP(...)`. -/
  | atGo
  /-- Blocked in the `select`. -/
  | atSelect
  /-- The call of `Connect` has returned these values. -/
  | returned (c : connection) (err : Option GoError)
  deriving DecidableEq, Repr

/-- A state of one run of `Connect`: the two control states (`task = none` before
the goroutine is started), the number of sends completed on each of the two
unbuffered channels, and the process state. -/
structure Boot where
  caller : CallerPC
  task : Option TaskPC
  sentConn : Nat
  sentStopped : Nat
  world : World
  deriving DecidableEq, Repr

/-- The state in which `Connect` starts. -/
def Boot.init (w : World) : Boot :=
  { caller := .atGo, task := none, sentConn := 0, sentStopped := 0, world := w }

/-- The steps the caller can take: the `go` statement, or a receive in the
`select` that meets the send the goroutine is blocked in (the channels are
unbuffered, so a send and its receive are one step). -/
def Boot.callerSteps (s : Boot) : List Boot :=
  match s.caller, s.task with
  | .atGo, _ => [{ s with caller := .atSelect, task := some .atDial }]
  | .atSelect, some (.atSendConn c) =>
    [{ s with caller := .returned { conn := some s.world.conns.length } none,
              task := some .finished,
              sentConn := s.sentConn + 1,
              world := { s.world with conns := s.world.conns ++ [c] } }]
  | .atSelect, some .atSendStopped =>
    [{ s with caller := .returned { conn := none } (some (.errorString
                "Unable to create a TCP connection with the message broker")),
              task := some .finished,
              sentStopped := s.sentStopped + 1 }]
  | _, _ => []

/-- The steps the goroutine can take on its own: the dial and the log line. -/
def Boot.taskSteps (net : Network) (address : GoString) (s : Boot) : List Boot :=
  match s.task with
  | some .atDial =>
    match net address with
    | .error _ => [{ s with task := some .atSendStopped }]
    | .ok conn => [{ s with task := some (.atLog conn) }]
  | some (.atLog conn) =>
    [{ s with task := some (.atSendConn conn),
              world := s.world.logPrintln
                (goString "Successfully Connected to message broker on " ++ address) }]
  | _ => []

/-- All states one step away, whichever of the two runs next. -/
def Boot.next (net : Network) (address : GoString) (s : Boot) : List Boot :=
  s.callerSteps ++ s.taskSteps net address

/-- The states a run of `Connect` can be in. -/
inductive Boot.Reachable (net : Network) (address : GoString) (w : World) : Boot → Prop where
  | init : Boot.Reachable net address w (Boot.init w)
  | step {s s1 : Boot} : Boot.Reachable net address w s → s1 ∈ s.next net address →
      Boot.Reachable net address w s1

/-- The number of steps left in a run. -/
def Boot.rank (s : Boot) : Nat :=
  (match s.caller with
    | .atGo => 2
    | .atSelect => 1
    | .returned _ _ => 0) +
  (match s.task with
    | none => 3
    | some .atDial => 3
    | some (.atLog _) => 2
    | some .atSendStopped => 1
    | some (.atSendConn _) => 1
    | some .finished => 0)

/-- A run under the scheduler that always takes the first step that is possible. -/
def Boot.run (net : Network) (address : GoString) : Nat → Boot → Boot
  | 0, s => s
  | n + 1, s =>
    match s.next net address with
    | [] => s
    | s1 :: _ => Boot.run net address n s1

/-- The function `Connect` of `client.go`: the values it returns and the state it leaves, `none` if the run has
not returned within the bound on its steps. -/
def Connect (net : Network) (address : GoString) (w : World) :
    Option ((connection × Option GoError) × World) :=
  let s := Boot.run net address 5 (Boot.init w)
  match s.caller with
  | .returned c err => some ((c, err), s.world)
  | _ => none

/-! ## Auxiliary notions used in the statements and proofs -/

/-- A rune of two to four bytes at the head of `p` that `AppendRune` encodes back
to the same bytes, whatever follows them. -/
def GoodRune (p : List Nat) (d : Nat × Nat) : Prop :=
  AppendRune d.1 = p.take d.2 ∧ 2 ≤ d.2 ∧ d.2 ≤ p.length ∧
    (∀ X, DecodeRune (p.take d.2 ++ X) = d)

/-- A byte that a JSON string literal holds as it is. -/
def PlainByte (c : Nat) : Prop := 0x20 ≤ c ∧ c < 0x80 ∧ c ≠ 0x22 ∧ c ≠ 0x5C

/-- A JSON package whose `Marshal` fails on every value. -/
def failingJSON : JSONPackage where
  MarshalQueue := fun _ => .error (.errorString "json: unsupported value")
  MarshalEPMessage := fun _ => .error (.errorString "json: unsupported value")

/-! # Theorems -/

/-! ## The stream registry and the write path: basic facts -/

theorem mapIndex_append_of_some (m : List (GoString × Channel)) (e : GoString × Channel)
    (k : GoString) (v : Channel) (h : mapIndex m k = some v) :
    mapIndex (m ++ [e]) k = some v := by
  unfold mapIndex at *
  rw [List.find?_append]
  cases hf : m.find? (fun e => decide (e.1 = k)) with
  | none => simp [hf] at h
  | some x => simpa [hf] using h

theorem mapAssign_of_absent (m : List (GoString × Channel)) (k : GoString) (v : Channel)
    (h : mapIndex m k = none) : mapAssign m k v = m ++ [(k, v)] := by
  simp [mapAssign, h]

theorem mapIndex_eq_none_iff (m : List (GoString × Channel)) (k : GoString) :
    mapIndex m k = none ↔ k ∉ mapKeys m := by
  induction m with
  | nil => simp [mapIndex, mapKeys]
  | cons e m ih =>
    simp only [mapIndex, mapKeys] at *
    by_cases hk : e.1 = k
    · simp [List.find?, hk]
    · have hk2 : ¬ k = e.1 := fun h => hk h.symm
      simp [List.find?, hk, hk2, ih]

theorem CreateChannel_pool (c : connection) (k : GoString) (w : World) :
    (c.CreateChannel k w).2.STREAM_POOL =
      if (mapIndex w.STREAM_POOL k).isSome then w.STREAM_POOL
      else w.STREAM_POOL ++ [(k, { StreamID := k, BoundTo := [], conn := c.conn })] := by
  unfold connection.CreateChannel
  cases h : mapIndex w.STREAM_POOL k with
  | none => simp [h, mapAssign_of_absent]
  | some v => simp [h]

theorem AssertQueue_pool (lib : JSONPackage) (ch : Channel) (Name Typ : GoString)
    (Durable : Bool) (w : World) :
    (ch.AssertQueue lib Name Typ Durable w).2.STREAM_POOL = w.STREAM_POOL := by
  unfold Channel.AssertQueue
  simp only [World.printf]
  split
  · rfl
  · split
    · rfl
    · split
      · rfl
      · split <;> rfl

theorem DeliverMessage_pool (lib : JSONPackage) (ch : Channel) (Route : GoString)
    (Message : Option (List Nat)) (QueueType : GoString) (w : World) :
    (ch.DeliverMessage lib Route Message QueueType w).2.STREAM_POOL = w.STREAM_POOL := by
  unfold Channel.DeliverMessage
  simp only [World.printf, World.logPrintln]
  split
  · rfl
  · split
    · rfl
    · split
      · rfl
      · split <;> rfl

theorem AssertQueue_of_fault (ch : Channel) (Name Typ : GoString) (Durable : Bool) (w : World)
    (a : Nat) (c : NetConn) (n : Nat) (err : GoError)
    (hp : ch.conn = some a) (hc : w.conns[a]? = some c) (hf : c.fault = some (n, err)) :
    ch.AssertQueue json Name Typ Durable w =
      (.returned ([], some err),
        (w.setConn a (c.Write (MarshalQueue ⟨goString "Queue", Name, Typ, Durable⟩)).1).printf
          (if errors.Is (some err) (some GoError.EOF)
            then goString "ERROR: connection was closed"
            else goString "ERROR: Unable to write to message broker")) := by
  simp only [Channel.AssertQueue, json, deref, hp, hc, Option.map_some', NetConn.Write, hf]
  by_cases h : errors.Is (some err) (some GoError.EOF) = true <;> simp [h]

theorem DeliverMessage_of_fault (ch : Channel) (Route : GoString) (Message : Option (List Nat))
    (QueueType : GoString) (w : World)
    (a : Nat) (c : NetConn) (n : Nat) (err : GoError)
    (hp : ch.conn = some a) (hc : w.conns[a]? = some c) (hf : c.fault = some (n, err)) :
    ch.DeliverMessage json Route Message QueueType w =
      (.returned (some err),
        ((w.logPrintln (goString "Delivering Message")).setConn a
          (c.Write (MarshalEPMessage ⟨goString "EPMessage", Route, QueueType, Message⟩)).1).printf
          (if errors.Is (some err) (some GoError.EOF)
            then goString "ERROR: connection was closed"
            else goString "ERROR: Unable to write to message broker")) := by
  simp only [Channel.DeliverMessage, json, deref, hp, World.logPrintln, hc, Option.map_some',
    NetConn.Write, hf]
  by_cases h : errors.Is (some err) (some GoError.EOF) = true <;> simp [h, World.printf]

theorem AssertQueue_of_healthy (ch : Channel) (Name Typ : GoString) (Durable : Bool) (w : World)
    (a : Nat) (c : NetConn)
    (hp : ch.conn = some a) (hc : w.conns[a]? = some c) (hf : c.fault = none) :
    ch.AssertQueue json Name Typ Durable w =
      (.returned (Name, none),
        w.setConn a
          { c with wire := c.wire ++ MarshalQueue ⟨goString "Queue", Name, Typ, Durable⟩ }) := by
  simp [Channel.AssertQueue, json, deref, hp, hc, NetConn.Write, hf, errors.Is]

theorem DeliverMessage_of_healthy (ch : Channel) (Route : GoString)
    (Message : Option (List Nat)) (QueueType : GoString) (w : World)
    (a : Nat) (c : NetConn)
    (hp : ch.conn = some a) (hc : w.conns[a]? = some c) (hf : c.fault = none) :
    ch.DeliverMessage json Route Message QueueType w =
      (.returned none,
        (w.logPrintln (goString "Delivering Message")).setConn a
          { c with wire := c.wire ++
                    MarshalEPMessage ⟨goString "EPMessage", Route, QueueType, Message⟩ }) := by
  simp [Channel.DeliverMessage, json, deref, hp, hc, NetConn.Write, hf, errors.Is,
    World.logPrintln]

/-! ## UTF-8: decoding a rune and encoding it back -/

theorem DecodeRune_good_two (b : Nat) (rest : List Nat) (h1 : 0xC2 ≤ b) (h2 : b < 0xE0) :
    DecodeRune (b :: rest) = (RuneError, 1) ∨ GoodRune (b :: rest) (DecodeRune (b :: rest)) := by
  have hx : first b = 0x02 := by
    unfold first
    split_ifs <;> omega
  rcases rest with _ | ⟨b1, tail⟩
  · left
    simp [DecodeRune, hx]
  · by_cases hb1 : b1 < 0x80 ∨ 0xBF < b1
    · left
      simp [DecodeRune, hx, acceptRanges, hb1]
    · right
      have hd : ∀ X, DecodeRune (b :: b1 :: X) = ((b % 32) * 64 + b1 % 64, 2) := by
        intro X
        simp [DecodeRune, hx, acceptRanges, hb1]
      rw [hd]
      refine ⟨?_, by simp, by simp, fun X => by simpa using hd X⟩
      simp only [AppendRune, List.take]
      split_ifs <;> simp <;> omega

theorem DecodeRune_good_three (b : Nat) (rest : List Nat) (lo hi : Nat)
    (hlt : ¬ first b ≥ 0xF0) (hsz : first b % 8 = 3)
    (hacc : acceptRanges (first b / 16) = (lo, hi))
    (h1 : 0xE0 ≤ b) (h2 : b ≤ 0xEF) (hlo : 0x80 ≤ lo) (hhi : hi ≤ 0xBF)
    (hE0 : b = 0xE0 → 0xA0 ≤ lo) (hED : b = 0xED → hi ≤ 0x9F) :
    DecodeRune (b :: rest) = (RuneError, 1) ∨ GoodRune (b :: rest) (DecodeRune (b :: rest)) := by
  rcases rest with _ | ⟨b1, _ | ⟨b2, tail⟩⟩
  · left
    simp [DecodeRune, hlt, hsz]
  · left
    simp [DecodeRune, hlt, hsz]
  · by_cases hb1 : b1 < lo ∨ hi < b1
    · left
      simp [DecodeRune, hlt, hsz, hacc, hb1]
    · by_cases hb2 : b2 < 0x80 ∨ 0xBF < b2
      · left
        simp [DecodeRune, hlt, hsz, hacc, hb1, hb2]
      · right
        have hd : ∀ X, DecodeRune (b :: b1 :: b2 :: X) =
            ((b % 16) * 4096 + (b1 % 64) * 64 + b2 % 64, 3) := by
          intro X
          simp [DecodeRune, hlt, hsz, hacc, hb1, hb2]
        rw [hd]
        refine ⟨?_, by simp, by simp, fun X => by simpa using hd X⟩
        simp only [AppendRune, List.take]
        split_ifs <;> simp <;> omega

theorem DecodeRune_good_four (b : Nat) (rest : List Nat) (lo hi : Nat)
    (hlt : ¬ first b ≥ 0xF0) (hsz : first b % 8 = 4)
    (hacc : acceptRanges (first b / 16) = (lo, hi))
    (h1 : 0xF0 ≤ b) (h2 : b ≤ 0xF4) (hlo : 0x80 ≤ lo) (hhi : hi ≤ 0xBF)
    (hF0 : b = 0xF0 → 0x90 ≤ lo) (hF4 : b = 0xF4 → hi ≤ 0x8F) :
    DecodeRune (b :: rest) = (RuneError, 1) ∨ GoodRune (b :: rest) (DecodeRune (b :: rest)) := by
  rcases rest with _ | ⟨b1, _ | ⟨b2, _ | ⟨b3, tail⟩⟩⟩
  · left
    simp [DecodeRune, hlt, hsz]
  · left
    simp [DecodeRune, hlt, hsz]
  · left
    simp [DecodeRune, hlt, hsz]
  · by_cases hb1 : b1 < lo ∨ hi < b1
    · left
      simp [DecodeRune, hlt, hsz, hacc, hb1]
    · by_cases hb2 : b2 < 0x80 ∨ 0xBF < b2
      · left
        simp [DecodeRune, hlt, hsz, hacc, hb1, hb2]
      · by_cases hb3 : b3 < 0x80 ∨ 0xBF < b3
        · left
          simp [DecodeRune, hlt, hsz, hacc, hb1, hb2, hb3]
        · right
          have hd : ∀ X, DecodeRune (b :: b1 :: b2 :: b3 :: X) =
              ((b % 8) * 262144 + (b1 % 64) * 4096 + (b2 % 64) * 64 + b3 % 64, 4) := by
            intro X
            simp [DecodeRune, hlt, hsz, hacc, hb1, hb2, hb3]
          rw [hd]
          refine ⟨?_, by simp, by simp, fun X => by simpa using hd X⟩
          simp only [AppendRune, List.take]
          split_ifs <;> simp <;> omega

theorem DecodeRune_good (b : Nat) (rest : List Nat) (hb : 0x80 ≤ b) :
    DecodeRune (b :: rest) = (RuneError, 1) ∨ GoodRune (b :: rest) (DecodeRune (b :: rest)) := by
  by_cases c1 : b < 0xC2
  · left
    have hx : first b = 0xF1 := by
      unfold first
      split_ifs <;> omega
    simp [DecodeRune, hx]
  by_cases c2 : b < 0xE0
  · exact DecodeRune_good_two b rest (by omega) c2
  by_cases c3 : b = 0xE0
  · subst c3
    exact DecodeRune_good_three _ rest 0xA0 0xBF (by decide) (by decide) (by decide)
      (by omega) (by omega) (by omega) (by omega) (by omega) (by omega)
  by_cases c4 : b = 0xED
  · subst c4
    exact DecodeRune_good_three _ rest 0x80 0x9F (by decide) (by decide) (by decide)
      (by omega) (by omega) (by omega) (by omega) (by omega) (by omega)
  by_cases c5 : b < 0xF0
  · have hx : first b = 0x03 := by
      unfold first
      split_ifs <;> omega
    exact DecodeRune_good_three b rest 0x80 0xBF (by rw [hx]; decide) (by rw [hx])
      (by rw [hx]; rfl) (by omega) (by omega) (by omega) (by omega) (by omega) (by omega)
  by_cases c6 : b = 0xF0
  · subst c6
    exact DecodeRune_good_four _ rest 0x90 0xBF (by decide) (by decide) (by decide)
      (by omega) (by omega) (by omega) (by omega) (by omega) (by omega)
  by_cases c7 : b = 0xF4
  · subst c7
    exact DecodeRune_good_four _ rest 0x80 0x8F (by decide) (by decide) (by decide)
      (by omega) (by omega) (by omega) (by omega) (by omega) (by omega)
  by_cases c8 : b < 0xF4
  · have hx : first b = 0x04 := by
      unfold first
      split_ifs <;> omega
    exact DecodeRune_good_four b rest 0x80 0xBF (by rw [hx]; decide) (by rw [hx])
      (by rw [hx]; rfl) (by omega) (by omega) (by omega) (by omega) (by omega) (by omega)
  · left
    have hx : first b = 0xF1 := by
      unfold first
      split_ifs <;> omega
    simp [DecodeRune, hx]

theorem hexVal_hex : ∀ n, n < 16 → hexVal (hex.getD n 0) = some n := by decide

theorem unquoteLoop_quote (f : Nat) (s : List Nat) :
    unquoteLoop (f + 1) (0x22 :: s) = some ([], s) := by
  simp [unquoteLoop]

theorem unquoteLoop_ascii (f c : Nat) (s : List Nat) (h1 : 0x20 ≤ c) (h2 : c < 0x80)
    (h3 : c ≠ 0x22) (h4 : c ≠ 0x5C) :
    unquoteLoop (f + 1) (c :: s) = (unquoteLoop f s).map (fun r => (c :: r.1, r.2)) := by
  have h5 : ¬ c < 0x20 := by omega
  simp [unquoteLoop, h2, h3, h4, h5]

theorem unquoteLoop_u4 (f : Nat) (h0 h1 h2 h3 a b c d : Nat) (s : List Nat)
    (e0 : hexVal h0 = some a) (e1 : hexVal h1 = some b) (e2 : hexVal h2 = some c)
    (e3 : hexVal h3 = some d)
    (hs : ¬ (0xD800 ≤ ((a * 16 + b) * 16 + c) * 16 + d ∧
      ((a * 16 + b) * 16 + c) * 16 + d < 0xE000)) :
    unquoteLoop (f + 1) (0x5C :: 0x75 :: h0 :: h1 :: h2 :: h3 :: s) =
      (unquoteLoop f s).map
        (fun r => (AppendRune (((a * 16 + b) * 16 + c) * 16 + d) ++ r.1, r.2)) := by
  simp [unquoteLoop, getu4, e0, e1, e2, e3, hs]

theorem unquoteLoop_escapeByte (f b : Nat) (s : List Nat) (h1 : b < 0x80)
    (h2 : htmlSafeSet b = false) :
    unquoteLoop (f + 1) (escapeByte b ++ s) =
      (unquoteLoop f s).map (fun r => (b :: r.1, r.2)) := by
  unfold escapeByte
  split_ifs with c1 c2 c3 c4 c5 c6
  · rcases c1 with c1 | c1 <;> subst c1 <;> simp [unquoteLoop]
  · subst c2; simp [unquoteLoop]
  · subst c3; simp [unquoteLoop]
  · subst c4; simp [unquoteLoop]
  · subst c5; simp [unquoteLoop]
  · subst c6; simp [unquoteLoop]
  · have e1 := hexVal_hex (b / 16) (by omega)
    have e2 := hexVal_hex (b % 16) (by omega)
    have e0 : hexVal 0x30 = some 0 := by decide
    have := unquoteLoop_u4 f 0x30 0x30 (hex.getD (b / 16) 0) (hex.getD (b % 16) 0) 0 0
      (b / 16) (b % 16) s e0 e0 e1 e2 (by omega)
    simp only [List.cons_append, List.nil_append]
    rw [this]
    have hb : ((0 * 16 + 0) * 16 + b / 16) * 16 + b % 16 = b := by omega
    rw [hb]
    have ha : AppendRune b = [b] := by
      simp [AppendRune]
      omega
    simp [ha]

theorem unquoteLoop_rune (f b : Nat) (t s : List Nat) (hb : 0x80 ≤ b)
    (hg : GoodRune (b :: t) (DecodeRune (b :: t))) :
    unquoteLoop (f + 1) ((b :: t).take (DecodeRune (b :: t)).2 ++ s) =
      (unquoteLoop f s).map
        (fun r => ((b :: t).take (DecodeRune (b :: t)).2 ++ r.1, r.2)) := by
  obtain ⟨ha, h2, hl, hd⟩ := hg
  have hdX := hd s
  obtain ⟨k, hk⟩ : ∃ k, (DecodeRune (b :: t)).2 = k + 1 := ⟨(DecodeRune (b :: t)).2 - 1, by omega⟩
  have hlen : ((b :: t).take (DecodeRune (b :: t)).2).length = (DecodeRune (b :: t)).2 := by
    rw [List.length_take]
    omega
  have hdrop : ((b :: t).take (DecodeRune (b :: t)).2 ++ s).drop (DecodeRune (b :: t)).2 = s := by
    rw [List.drop_append_eq_append_drop, hlen, Nat.sub_self, List.drop_zero,
      List.drop_of_length_le (le_of_eq hlen), List.nil_append]
  have hcons : (b :: t).take (DecodeRune (b :: t)).2 ++ s = b :: (t.take k ++ s) := by
    rw [hk]
    rfl
  have h3 : ¬ b = 0x22 := by omega
  have h4 : ¬ b = 0x5C := by omega
  have h5 : ¬ b < 0x20 := by omega
  have h6 : ¬ b < 0x80 := by omega
  rw [hcons] at hdX hdrop
  rw [hcons]
  simp only [unquoteLoop, h3, h4, h5, h6, if_false, hdX, hdrop, ha]

theorem unquoteLoop_u202x (f r : Nat) (s : List Nat) (hr : r = 0x2028 ∨ r = 0x2029) :
    unquoteLoop (f + 1) ([0x5C, 0x75, 0x32, 0x30, 0x32, hex.getD (r % 16) 0] ++ s) =
      (unquoteLoop f s).map (fun x => (AppendRune r ++ x.1, x.2)) := by
  have e1 := hexVal_hex (r % 16) (by omega)
  have e0 : hexVal 0x30 = some 0 := by decide
  have e2 : hexVal 0x32 = some 2 := by decide
  have := unquoteLoop_u4 f 0x32 0x30 0x32 (hex.getD (r % 16) 0) 2 0 2 (r % 16) s e2 e0 e2 e1
    (by omega)
  simp only [List.cons_append, List.nil_append]
  rw [this]
  have hb : ((2 * 16 + 0) * 16 + 2) * 16 + r % 16 = r := by omega
  rw [hb]

theorem escapeByte_length (b : Nat) : 1 ≤ (escapeByte b).length := by
  unfold escapeByte
  split_ifs <;> simp

/-- Reading back what `appendStringLoop` wrote for a valid UTF-8 string, up to the
closing quote, gives the string and the input after the quote. -/
theorem unquoteLoop_appendStringLoop (fuel : Nat) :
    ∀ (s rest : List Nat) (fuel2 : Nat), validLoop fuel s = true → s.length ≤ fuel →
      (appendStringLoop fuel s).length < fuel2 →
      unquoteLoop fuel2 (appendStringLoop fuel s ++ 0x22 :: rest) = some (s, rest) := by
  induction fuel with
  | zero =>
    intro s rest fuel2 _ hl hf
    have hs : s = [] := List.length_eq_zero.1 (Nat.le_zero.1 hl)
    subst hs
    obtain ⟨f, rfl⟩ : ∃ f, fuel2 = f + 1 := ⟨fuel2 - 1, by omega⟩
    simp [appendStringLoop, unquoteLoop]
  | succ fuel ih =>
    intro s rest fuel2 hv hl hf
    obtain ⟨f, rfl⟩ : ∃ f, fuel2 = f + 1 := ⟨fuel2 - 1, by omega⟩
    cases s with
    | nil => simp [appendStringLoop, unquoteLoop]
    | cons b t =>
      simp only [List.length_cons] at hl
      by_cases hb : b < 0x80
      · simp only [validLoop, hb, if_true] at hv
        by_cases hsafe : htmlSafeSet b = true
        · simp only [appendStringLoop, hb, hsafe, if_true, List.length_cons] at hf ⊢
          have hs2 := hsafe
          simp only [htmlSafeSet, decide_eq_true_eq] at hs2
          rw [List.cons_append, unquoteLoop_ascii f b _ hs2.1 hb hs2.2.2.1 hs2.2.2.2.2.2.2,
            ih t rest f hv (by omega) (by omega)]
          rfl
        · have hsafe2 : htmlSafeSet b = false := by simpa using hsafe
          simp only [appendStringLoop, hb, hsafe2, if_true, Bool.false_eq_true, if_false,
            List.length_append] at hf ⊢
          have hlen := escapeByte_length b
          rw [List.append_assoc, unquoteLoop_escapeByte f b _ hb hsafe2,
            ih t rest f hv (by omega) (by omega)]
          rfl
      · have hb2 : 0x80 ≤ b := by omega
        simp only [validLoop, hb, if_false] at hv
        by_cases hbad : (DecodeRune (b :: t)).1 = RuneError ∧ (DecodeRune (b :: t)).2 = 1
        · simp [hbad] at hv
        · simp only [hbad, if_false] at hv
          have hg : GoodRune (b :: t) (DecodeRune (b :: t)) := by
            rcases DecodeRune_good b t hb2 with h | h
            · exact absurd (by rw [h]; exact ⟨rfl, rfl⟩) hbad
            · exact h
          obtain ⟨ha, h2, hle, hd⟩ := hg
          have hdl : ((b :: t).drop (DecodeRune (b :: t)).2).length ≤ fuel := by
            rw [List.length_drop, List.length_cons]
            omega
          have htd : (b :: t).take (DecodeRune (b :: t)).2 ++
              (b :: t).drop (DecodeRune (b :: t)).2 = b :: t := List.take_append_drop _ _
          by_cases h28 : (DecodeRune (b :: t)).1 = 0x2028 ∨ (DecodeRune (b :: t)).1 = 0x2029
          · simp only [appendStringLoop, hb, hbad, h28, if_true, if_false,
              List.length_append] at hf ⊢
            rw [List.append_assoc, unquoteLoop_u202x f _ _ h28,
              ih _ rest f hv hdl (by simp at hf; omega), ha]
            simp only [Option.map_some', htd]
          · simp only [appendStringLoop, hb, hbad, h28, if_false, List.length_append] at hf ⊢
            have hlt : ((b :: t).take (DecodeRune (b :: t)).2).length
                = (DecodeRune (b :: t)).2 := by
              rw [List.length_take]
              simp only [List.length_cons] at hle ⊢
              omega
            rw [List.append_assoc, unquoteLoop_rune f b t _ hb2 ⟨ha, h2, hle, hd⟩,
              ih _ rest f hv hdl (by omega)]
            simp only [Option.map_some', htd]

theorem unquote_appendString (s rest : List Nat) (hv : ValidString s = true) :
    unquote (appendStringLoop s.length s ++ 0x22 :: rest) = some (s, rest) := by
  unfold unquote
  exact unquoteLoop_appendStringLoop s.length s rest _ hv (le_refl _) (by simp)

/-! ## base64: decoding what was encoded -/

set_option maxRecDepth 100000 in
theorem encodeStd_spec : ∀ i, i < 64 →
    decodeMap (encodeStd.getD i 0) = i ∧ encodeStd.getD i 0 ≠ StdPadding ∧
      (0x20 ≤ encodeStd.getD i 0 ∧ encodeStd.getD i 0 < 0x80 ∧ encodeStd.getD i 0 ≠ 0x22 ∧
        encodeStd.getD i 0 ≠ 0x5C) := by
  decide

theorem base64Decode_quantum (a b c : Nat) (rest : List Nat) (ha : a < 256) (hb : b < 256)
    (hc : c < 256) :
    base64Decode (encodeStd.getD ((a * 65536 + b * 256 + c) / 262144 % 64) 0 ::
      encodeStd.getD ((a * 65536 + b * 256 + c) / 4096 % 64) 0 ::
      encodeStd.getD ((a * 65536 + b * 256 + c) / 64 % 64) 0 ::
      encodeStd.getD ((a * 65536 + b * 256 + c) % 64) 0 :: rest) =
    (base64Decode rest).map (fun t => a :: b :: c :: t) := by
  obtain ⟨d0, p0, _⟩ := encodeStd_spec ((a * 65536 + b * 256 + c) / 262144 % 64)
    (Nat.mod_lt _ (by decide))
  obtain ⟨d1, p1, _⟩ := encodeStd_spec ((a * 65536 + b * 256 + c) / 4096 % 64)
    (Nat.mod_lt _ (by decide))
  obtain ⟨d2, p2, _⟩ := encodeStd_spec ((a * 65536 + b * 256 + c) / 64 % 64)
    (Nat.mod_lt _ (by decide))
  obtain ⟨d3, p3, _⟩ := encodeStd_spec ((a * 65536 + b * 256 + c) % 64)
    (Nat.mod_lt _ (by decide))
  have q0 : ¬ ((a * 65536 + b * 256 + c) / 262144 % 64 = 0xFF ∨
      (a * 65536 + b * 256 + c) / 4096 % 64 = 0xFF) := by omega
  have q2 : ¬ ((a * 65536 + b * 256 + c) / 64 % 64 = 0xFF) := by omega
  have q3 : ¬ ((a * 65536 + b * 256 + c) % 64 = 0xFF) := by omega
  simp only [base64Decode, d0, d1, d2, d3, q0, q2, q3, p2, p3, if_false]
  have e1 : ((a * 65536 + b * 256 + c) / 262144 % 64 * 262144 +
      (a * 65536 + b * 256 + c) / 4096 % 64 * 4096 +
      (a * 65536 + b * 256 + c) / 64 % 64 * 64 + (a * 65536 + b * 256 + c) % 64) =
      a * 65536 + b * 256 + c := by omega
  rw [e1]
  have e2 : (a * 65536 + b * 256 + c) / 65536 % 256 = a := by omega
  have e3 : (a * 65536 + b * 256 + c) / 256 % 256 = b := by omega
  have e4 : (a * 65536 + b * 256 + c) % 256 = c := by omega
  rw [e2, e3, e4]

theorem base64Decode_one (a : Nat) (ha : a < 256) :
    base64Decode [encodeStd.getD (a * 65536 / 262144 % 64) 0,
      encodeStd.getD (a * 65536 / 4096 % 64) 0, StdPadding, StdPadding] = some [a] := by
  obtain ⟨d0, _, _⟩ := encodeStd_spec (a * 65536 / 262144 % 64) (Nat.mod_lt _ (by decide))
  obtain ⟨d1, _, _⟩ := encodeStd_spec (a * 65536 / 4096 % 64) (Nat.mod_lt _ (by decide))
  have q0 : ¬ (a * 65536 / 262144 % 64 = 0xFF ∨ a * 65536 / 4096 % 64 = 0xFF) := by omega
  simp only [base64Decode, d0, d1, q0, if_false, if_true, and_self]
  have e : (a * 65536 / 262144 % 64 * 262144 + a * 65536 / 4096 % 64 * 4096) / 65536 % 256
      = a := by omega
  rw [e]

theorem base64Decode_two (a b : Nat) (ha : a < 256) (hb : b < 256) :
    base64Decode [encodeStd.getD ((a * 65536 + b * 256) / 262144 % 64) 0,
      encodeStd.getD ((a * 65536 + b * 256) / 4096 % 64) 0,
      encodeStd.getD ((a * 65536 + b * 256) / 64 % 64) 0, StdPadding] = some [a, b] := by
  obtain ⟨d0, _, _⟩ := encodeStd_spec ((a * 65536 + b * 256) / 262144 % 64)
    (Nat.mod_lt _ (by decide))
  obtain ⟨d1, _, _⟩ := encodeStd_spec ((a * 65536 + b * 256) / 4096 % 64)
    (Nat.mod_lt _ (by decide))
  obtain ⟨d2, p2, _⟩ := encodeStd_spec ((a * 65536 + b * 256) / 64 % 64)
    (Nat.mod_lt _ (by decide))
  have q0 : ¬ ((a * 65536 + b * 256) / 262144 % 64 = 0xFF ∨
      (a * 65536 + b * 256) / 4096 % 64 = 0xFF) := by omega
  have q2 : ¬ ((a * 65536 + b * 256) / 64 % 64 = 0xFF) := by omega
  simp only [base64Decode, d0, d1, d2, q0, q2, p2, if_false, if_true]
  have e1 : ((a * 65536 + b * 256) / 262144 % 64 * 262144 +
      (a * 65536 + b * 256) / 4096 % 64 * 4096 + (a * 65536 + b * 256) / 64 % 64 * 64)
      = a * 65536 + b * 256 := by omega
  rw [e1]
  have e2 : (a * 65536 + b * 256) / 65536 % 256 = a := by omega
  have e3 : (a * 65536 + b * 256) / 256 % 256 = b := by omega
  rw [e2, e3]

/-- Decoding the base64 text of a byte sequence gives the byte sequence. -/
theorem base64Decode_base64Encode (n : Nat) :
    ∀ m : List Nat, m.length ≤ n → (∀ b ∈ m, b < 256) →
      base64Decode (base64Encode m) = some m := by
  induction n using Nat.strong_induction_on with
  | _ n ih =>
    intro m hl hm
    rcases m with _ | ⟨a, _ | ⟨b, _ | ⟨c, rest⟩⟩⟩
    · simp [base64Encode, base64Decode]
    · exact base64Decode_one a (hm a (by simp))
    · exact base64Decode_two a b (hm a (by simp)) (hm b (by simp))
    · simp only [base64Encode]
      rw [base64Decode_quantum a b c _ (hm a (by simp)) (hm b (by simp)) (hm c (by simp)),
        ih rest.length (by simp at hl; omega) rest (le_refl _)
          (fun x hx => hm x (by simp [hx]))]
      rfl

theorem base64Encode_plain (n : Nat) :
    ∀ m : List Nat, m.length ≤ n → ∀ c ∈ base64Encode m, PlainByte c := by
  induction n using Nat.strong_induction_on with
  | _ n ih =>
    intro m hl
    have hp : PlainByte StdPadding := by
      unfold PlainByte StdPadding
      omega
    have hq : ∀ i, PlainByte (encodeStd.getD (i % 64) 0) := fun i =>
      (encodeStd_spec (i % 64) (Nat.mod_lt _ (by decide))).2.2
    rcases m with _ | ⟨a, _ | ⟨b, _ | ⟨c, rest⟩⟩⟩
    · simp [base64Encode]
    · intro c hc
      simp only [base64Encode, List.mem_cons, List.mem_singleton, List.not_mem_nil,
        or_false] at hc
      rcases hc with h | h | h | h <;> subst h
      · exact hq _
      · exact hq _
      · exact hp
      · exact hp
    · intro c hc
      simp only [base64Encode, List.mem_cons, List.mem_singleton, List.not_mem_nil,
        or_false] at hc
      rcases hc with h | h | h | h <;> subst h
      · exact hq _
      · exact hq _
      · exact hq _
      · exact hp
    · intro x hx
      simp only [base64Encode, List.mem_cons] at hx
      rcases hx with h | h | h | h | h
      · subst h; exact hq _
      · subst h; exact hq _
      · subst h; exact hq _
      · subst h; exact hq _
      · exact ih rest.length (by simp at hl; omega) rest (le_refl _) x h

theorem unquoteLoop_plain (s : List Nat) :
    ∀ (rest : List Nat) (fuel : Nat), (∀ c ∈ s, PlainByte c) → s.length < fuel →
      unquoteLoop fuel (s ++ 0x22 :: rest) = some (s, rest) := by
  induction s with
  | nil =>
    intro rest fuel _ hf
    obtain ⟨f, rfl⟩ : ∃ f, fuel = f + 1 := ⟨fuel - 1, by simp at hf; omega⟩
    simp [unquoteLoop]
  | cons c s ih =>
    intro rest fuel hp hf
    obtain ⟨f, rfl⟩ : ∃ f, fuel = f + 1 := ⟨fuel - 1, by omega⟩
    have hc := hp c (by simp)
    rw [List.cons_append, unquoteLoop_ascii f c _ hc.1 hc.2.1 hc.2.2.1 hc.2.2.2,
      ih rest f (fun x hx => hp x (by simp [hx])) (by simp at hf; omega)]
    rfl

/-! ## Decoding a marshalled message -/

theorem skipSpace_cons (c : Nat) (s : List Nat) (h : isSpace c = false) :
    skipSpace (c :: s) = c :: s := by
  simp [skipSpace, List.dropWhile, h]

theorem parseValue_string (val rest : List Nat) (hv : ValidString val = true) :
    parseValue (0x22 :: (appendStringLoop val.length val ++ 0x22 :: rest)) =
      some (JValue.str val, rest) := by
  simp [parseValue, unquote_appendString val rest hv]

theorem parseValue_bool (b : Bool) (rest : List Nat) :
    parseValue (boolEncoder b ++ rest) = some (JValue.bool b, rest) := by
  have ht : goString "true" = [116, 114, 117, 101] := by decide
  have hf : goString "false" = [102, 97, 108, 115, 101] := by decide
  have hn : goString "null" = [110, 117, 108, 108] := by decide
  cases b <;> simp [boolEncoder, parseValue, ht, hf, hn]

theorem parseValue_bytes (body : Option (List Nat)) (rest : List Nat) :
    parseValue (encodeByteSlice body ++ rest) =
      some (match body with
        | none => JValue.null
        | some m => JValue.str (base64Encode m), rest) := by
  have ht : goString "true" = [116, 114, 117, 101] := by decide
  have hf : goString "false" = [102, 97, 108, 115, 101] := by decide
  have hn : goString "null" = [110, 117, 108, 108] := by decide
  cases body with
  | none => simp [encodeByteSlice, parseValue, ht, hf, hn]
  | some m =>
    have h := unquoteLoop_plain (base64Encode m) rest
      ((base64Encode m ++ 0x22 :: rest).length)
      (base64Encode_plain m.length m (le_refl _)) (by simp)
    simp only [encodeByteSlice, parseValue, List.cons_append, List.nil_append,
      List.append_assoc, if_true, unquote, h, Option.map_some']

/-- One member with a string value, followed by a further member. -/
theorem parseMembers_string (fuel : Nat) (key val rest : List Nat)
    (hk : ValidString key = true) (hv : ValidString val = true) :
    parseMembers (fuel + 1) (0x22 :: (appendStringLoop key.length key ++ 0x22 :: 0x3A :: 0x22 ::
      (appendStringLoop val.length val ++ 0x22 :: 0x2C :: 0x22 :: rest))) =
    (parseMembers fuel (0x22 :: rest)).map (fun r => ((key, JValue.str val) :: r.1, r.2)) := by
  simp only [parseMembers, if_true, unquote_appendString key _ hk]
  rw [skipSpace_cons 0x3A _ (by decide)]
  simp only [if_true]
  rw [skipSpace_cons 0x22 _ (by decide), parseValue_string val _ hv]
  simp only []
  rw [skipSpace_cons 0x2C _ (by decide)]
  simp only [if_true]
  rw [skipSpace_cons 0x22 _ (by decide)]

/-- The last member of an object, whose value `enc` parses to `v`. -/
theorem parseMembers_last (fuel : Nat) (key enc rest : List Nat) (v : JValue)
    (hk : ValidString key = true)
    (hv : parseValue (enc ++ 0x7D :: rest) = some (v, 0x7D :: rest))
    (hne : ∃ c t, enc = c :: t ∧ isSpace c = false) :
    parseMembers (fuel + 1) (0x22 :: (appendStringLoop key.length key ++ 0x22 :: 0x3A ::
      (enc ++ 0x7D :: rest))) = some ([(key, v)], rest) := by
  obtain ⟨c, t, rfl, hc⟩ := hne
  simp only [parseMembers, if_true, unquote_appendString key _ hk]
  rw [skipSpace_cons 0x3A _ (by decide)]
  simp only [if_true]
  rw [List.cons_append, skipSpace_cons c _ hc, ← List.cons_append, hv]
  simp only []
  rw [skipSpace_cons 0x7D _ (by decide)]
  simp

theorem MarshalQueue_eq (q : Queue) :
    MarshalQueue q = 0x7B :: 0x22 ::
      (appendStringLoop (goString "MessageType").length (goString "MessageType") ++
        0x22 :: 0x3A :: 0x22 ::
      (appendStringLoop q.MessageType.length q.MessageType ++ 0x22 :: 0x2C :: 0x22 ::
      (appendStringLoop (goString "Name").length (goString "Name") ++ 0x22 :: 0x3A :: 0x22 ::
      (appendStringLoop q.Name.length q.Name ++ 0x22 :: 0x2C :: 0x22 ::
      (appendStringLoop (goString "Type").length (goString "Type") ++ 0x22 :: 0x3A :: 0x22 ::
      (appendStringLoop q.Typ.length q.Typ ++ 0x22 :: 0x2C :: 0x22 ::
      (appendStringLoop (goString "Durable").length (goString "Durable") ++ 0x22 :: 0x3A ::
      (boolEncoder q.Durable ++ 0x7D :: [])))))))) := by
  have c1 : goString "\x7b" = [0x7B] := by decide
  have c2 : goString ":" = [0x3A] := by decide
  have c3 : goString "," = [0x2C] := by decide
  have c4 : goString "\x7d" = [0x7D] := by decide
  simp only [MarshalQueue, appendString, c1, c2, c3, c4, List.append_assoc, List.cons_append,
    List.nil_append]

theorem MarshalEPMessage_eq (m : EPMessage) :
    MarshalEPMessage m = 0x7B :: 0x22 ::
      (appendStringLoop (goString "MessageType").length (goString "MessageType") ++
        0x22 :: 0x3A :: 0x22 ::
      (appendStringLoop m.MessageType.length m.MessageType ++ 0x22 :: 0x2C :: 0x22 ::
      (appendStringLoop (goString "Route").length (goString "Route") ++ 0x22 :: 0x3A :: 0x22 ::
      (appendStringLoop m.Route.length m.Route ++ 0x22 :: 0x2C :: 0x22 ::
      (appendStringLoop (goString "Type").length (goString "Type") ++ 0x22 :: 0x3A :: 0x22 ::
      (appendStringLoop m.Typ.length m.Typ ++ 0x22 :: 0x2C :: 0x22 ::
      (appendStringLoop (goString "Body").length (goString "Body") ++ 0x22 :: 0x3A ::
      (encodeByteSlice m.Body ++ 0x7D :: [])))))))) := by
  have c1 : goString "\x7b" = [0x7B] := by decide
  have c2 : goString ":" = [0x3A] := by decide
  have c3 : goString "," = [0x2C] := by decide
  have c4 : goString "\x7d" = [0x7D] := by decide
  simp only [MarshalEPMessage, appendString, c1, c2, c3, c4, List.append_assoc,
    List.cons_append, List.nil_append]

theorem boolEncoder_head (b : Bool) : ∃ c t, boolEncoder b = c :: t ∧ isSpace c = false := by
  cases b
  · exact ⟨102, [97, 108, 115, 101], by decide, by decide⟩
  · exact ⟨116, [114, 117, 101], by decide, by decide⟩

theorem encodeByteSlice_head (body : Option (List Nat)) :
    ∃ c t, encodeByteSlice body = c :: t ∧ isSpace c = false := by
  cases body with
  | none => exact ⟨110, [117, 108, 108], by decide, by decide⟩
  | some m => exact ⟨0x22, base64Encode m ++ [0x22], by simp [encodeByteSlice], by decide⟩

/-- The members that the decoder reads from a marshalled `Queue`. -/
theorem parseObject_MarshalQueue (q : Queue) (h1 : ValidString q.MessageType = true)
    (h2 : ValidString q.Name = true) (h3 : ValidString q.Typ = true) :
    parseObject (MarshalQueue q) = some [(goString "MessageType", JValue.str q.MessageType),
      (goString "Name", JValue.str q.Name), (goString "Type", JValue.str q.Typ),
      (goString "Durable", JValue.bool q.Durable)] := by
  obtain ⟨f, hf⟩ : ∃ f, (MarshalQueue q).length = f + 4 :=
    ⟨(MarshalQueue q).length - 4, by
      rw [MarshalQueue_eq]
      simp only [List.length_cons, List.length_append]
      omega⟩
  unfold parseObject
  rw [hf, MarshalQueue_eq, skipSpace_cons 0x7B _ (by decide)]
  simp only [if_true]
  rw [skipSpace_cons 0x22 _ (by decide)]
  simp only [show ¬ (0x22 : Nat) = 0x7D by decide, if_false]
  rw [parseMembers_string (f + 3) _ _ _ (by decide) h1,
    parseMembers_string (f + 2) _ _ _ (by decide) h2,
    parseMembers_string (f + 1) _ _ _ (by decide) h3,
    parseMembers_last f _ _ [] (JValue.bool q.Durable) (by decide) (parseValue_bool _ _)
      (boolEncoder_head _)]
  simp [skipSpace]

/-- The members that the decoder reads from a marshalled `EPMessage`. -/
theorem parseObject_MarshalEPMessage (m : EPMessage) (h1 : ValidString m.MessageType = true)
    (h2 : ValidString m.Route = true) (h3 : ValidString m.Typ = true) :
    parseObject (MarshalEPMessage m) = some [(goString "MessageType", JValue.str m.MessageType),
      (goString "Route", JValue.str m.Route), (goString "Type", JValue.str m.Typ),
      (goString "Body", match m.Body with
        | none => JValue.null
        | some b => JValue.str (base64Encode b))] := by
  obtain ⟨f, hf⟩ : ∃ f, (MarshalEPMessage m).length = f + 4 :=
    ⟨(MarshalEPMessage m).length - 4, by
      rw [MarshalEPMessage_eq]
      simp only [List.length_cons, List.length_append]
      omega⟩
  unfold parseObject
  rw [hf, MarshalEPMessage_eq, skipSpace_cons 0x7B _ (by decide)]
  simp only [if_true]
  rw [skipSpace_cons 0x22 _ (by decide)]
  simp only [show ¬ (0x22 : Nat) = 0x7D by decide, if_false]
  rw [parseMembers_string (f + 3) _ _ _ (by decide) h1,
    parseMembers_string (f + 2) _ _ _ (by decide) h2,
    parseMembers_string (f + 1) _ _ _ (by decide) h3,
    parseMembers_last f _ _ [] _ (by decide) (parseValue_bytes _ _)
      (encodeByteSlice_head _)]
  simp [skipSpace]

/-- Decoding the encoding of a `Queue` whose strings are valid UTF-8 gives the `Queue`. -/
theorem UnmarshalQueue_MarshalQueue (q : Queue) (h1 : ValidString q.MessageType = true)
    (h2 : ValidString q.Name = true) (h3 : ValidString q.Typ = true) :
    UnmarshalQueue (MarshalQueue q) = some q := by
  have k1 : ¬ goString "Name" = goString "MessageType" := by decide
  have k2 : ¬ goString "Type" = goString "MessageType" := by decide
  have k3 : ¬ goString "Type" = goString "Name" := by decide
  have k4 : ¬ goString "Durable" = goString "MessageType" := by decide
  have k5 : ¬ goString "Durable" = goString "Name" := by decide
  have k6 : ¬ goString "Durable" = goString "Type" := by decide
  unfold UnmarshalQueue
  rw [parseObject_MarshalQueue q h1 h2 h3]
  simp [List.foldlM, Queue.setField, k1, k2, k3, k4, k5, k6]

/-- Decoding the encoding of an `EPMessage` whose strings are valid UTF-8 and whose
body is a byte sequence gives the `EPMessage`. -/
theorem UnmarshalEPMessage_MarshalEPMessage (m : EPMessage)
    (h1 : ValidString m.MessageType = true) (h2 : ValidString m.Route = true)
    (h3 : ValidString m.Typ = true) (h4 : ∀ b, m.Body = some b → ∀ x ∈ b, x < 256) :
    UnmarshalEPMessage (MarshalEPMessage m) = some m := by
  have k1 : ¬ goString "Route" = goString "MessageType" := by decide
  have k2 : ¬ goString "Type" = goString "MessageType" := by decide
  have k3 : ¬ goString "Type" = goString "Route" := by decide
  have k4 : ¬ goString "Body" = goString "MessageType" := by decide
  have k5 : ¬ goString "Body" = goString "Route" := by decide
  have k6 : ¬ goString "Body" = goString "Type" := by decide
  unfold UnmarshalEPMessage
  rw [parseObject_MarshalEPMessage m h1 h2 h3]
  cases hb : m.Body with
  | none =>
    cases m
    simp_all [List.foldlM, EPMessage.setField, k1, k2, k3, k4, k5, k6]
  | some b =>
    have hd := base64Decode_base64Encode b.length b (le_refl _) (h4 b hb)
    cases m
    simp_all [List.foldlM, EPMessage.setField, k1, k2, k3, k4, k5, k6]

/-! ## The two wire messages -/

set_option maxRecDepth 100000 in
/-- C1, as stated, fails: the Go string `"\xff"` is a `Name` that is not valid
UTF-8. `AssertQueue("\xff", "P2P", true)` still returns `("\xff", nil)`, but
`json.Marshal` writes the name as the escape of U+FFFD, so the bytes on the
transport decode to a `Queue` whose `Name` is the three bytes of U+FFFD, which is
not the `Name` passed in. -/
theorem AssertQueue_name_not_utf8 :
    (({ StreamID := goString "s", BoundTo := [], conn := some 0 } : Channel).AssertQueue
        json [0xFF] (goString "P2P") true ⟨[⟨[], none⟩], [], [], []⟩).1
      = .returned ([0xFF], none) ∧
    (({ StreamID := goString "s", BoundTo := [], conn := some 0 } : Channel).AssertQueue
        json [0xFF] (goString "P2P") true ⟨[⟨[], none⟩], [], [], []⟩).2.conns
      = [⟨goString
          "\x7b\"MessageType\":\"Queue\",\"Name\":\"\\ufffd\",\"Type\":\"P2P\",\"Durable\":true\x7d",
          none⟩] ∧
    UnmarshalQueue (goString
        "\x7b\"MessageType\":\"Queue\",\"Name\":\"\\ufffd\",\"Type\":\"P2P\",\"Durable\":true\x7d")
      = some ⟨goString "Queue", [0xEF, 0xBF, 0xBD], goString "P2P", true⟩ ∧
    UnmarshalQueue (goString
        "\x7b\"MessageType\":\"Queue\",\"Name\":\"\\ufffd\",\"Type\":\"P2P\",\"Durable\":true\x7d")
      ≠ some ⟨goString "Queue", [0xFF], goString "P2P", true⟩ := by
  decide

/-- C1, amended: when the write succeeds, `AssertQueue(Name, Type, Durable)` returns
`(Name, nil)` for every `Name`, `Type` (any string) and `Durable`, and appends to
the transport exactly the bytes of `json.Marshal` of the `Queue`; when `Name` and
`Type` are valid UTF-8 these bytes are exactly one JSON object that decodes to
`MessageType = "Queue"`, `Name`, `Type`, `Durable`; for `("orders", "P2P", true)`
the bytes are `{"MessageType":"Queue","Name":"orders","Type":"P2P","Durable":true}`. -/
theorem AssertQueue_writes_queue (ch : Channel) (w : World) (a : Nat) (c : NetConn)
    (hp : ch.conn = some a) (hc : w.conns[a]? = some c) (hf : c.fault = none)
    (Name Typ : GoString) (Durable : Bool) :
    ch.AssertQueue json Name Typ Durable w =
      (.returned (Name, none),
        w.setConn a
          { c with wire := c.wire ++ MarshalQueue ⟨goString "Queue", Name, Typ, Durable⟩ }) ∧
    (ValidString Name = true → ValidString Typ = true →
      UnmarshalQueue (MarshalQueue ⟨goString "Queue", Name, Typ, Durable⟩) =
        some ⟨goString "Queue", Name, Typ, Durable⟩) ∧
    MarshalQueue ⟨goString "Queue", goString "orders", goString "P2P", true⟩ = goString
      "\x7b\"MessageType\":\"Queue\",\"Name\":\"orders\",\"Type\":\"P2P\",\"Durable\":true\x7d" :=
  ⟨AssertQueue_of_healthy ch Name Typ Durable w a c hp hc hf,
    fun hN hT => UnmarshalQueue_MarshalQueue _
      (show ValidString (goString "Queue") = true by decide) hN hT, by decide⟩

/-- The amended C1 at `AssertQueue("orders", "P2P", true)` on a healthy transport. -/
theorem AssertQueue_writes_queue_witness :
    (({ StreamID := goString "s", BoundTo := [], conn := some 0 } : Channel).AssertQueue
        json (goString "orders") (goString "P2P") true ⟨[⟨[], none⟩], [], [], []⟩).1
      = .returned (goString "orders", none) ∧
    UnmarshalQueue (MarshalQueue ⟨goString "Queue", goString "orders", goString "P2P", true⟩)
      = some ⟨goString "Queue", goString "orders", goString "P2P", true⟩ :=
  ⟨congrArg Prod.fst (AssertQueue_writes_queue ⟨goString "s", [], some 0⟩
      ⟨[⟨[], none⟩], [], [], []⟩ 0 ⟨[], none⟩ rfl rfl rfl (goString "orders") (goString "P2P")
      true).1,
    (AssertQueue_writes_queue ⟨goString "s", [], some 0⟩
      ⟨[⟨[], none⟩], [], [], []⟩ 0 ⟨[], none⟩ rfl rfl rfl (goString "orders") (goString "P2P")
      true).2.1 (by decide) (by decide)⟩

set_option maxRecDepth 100000 in
/-- C2, as stated, fails: the Go string `"\xff"` is a `Route` that is not valid
UTF-8. `DeliverMessage("\xff", []byte("hello"), "P2P")` returns nil, but the
envelope on the transport decodes to a `Route` of the three bytes of U+FFFD. -/
theorem DeliverMessage_route_not_utf8 :
    (({ StreamID := goString "s", BoundTo := [], conn := some 0 } : Channel).DeliverMessage
        json [0xFF] (some (goString "hello")) (goString "P2P") ⟨[⟨[], none⟩], [], [], []⟩).1
      = .returned none ∧
    (({ StreamID := goString "s", BoundTo := [], conn := some 0 } : Channel).DeliverMessage
        json [0xFF] (some (goString "hello")) (goString "P2P")
        ⟨[⟨[], none⟩], [], [], []⟩).2.conns
      = [⟨MarshalEPMessage ⟨goString "EPMessage", [0xFF], goString "P2P",
          some (goString "hello")⟩, none⟩] ∧
    UnmarshalEPMessage (MarshalEPMessage ⟨goString "EPMessage", [0xFF], goString "P2P",
        some (goString "hello")⟩)
      = some ⟨goString "EPMessage", [0xEF, 0xBF, 0xBD], goString "P2P",
          some (goString "hello")⟩ ∧
    UnmarshalEPMessage (MarshalEPMessage ⟨goString "EPMessage", [0xFF], goString "P2P",
        some (goString "hello")⟩)
      ≠ some ⟨goString "EPMessage", [0xFF], goString "P2P", some (goString "hello")⟩ := by
  decide

/-- C2, amended: when the write succeeds, `DeliverMessage(Route, Message, QueueType)`
returns nil for all arguments and appends to the transport exactly the bytes of
`json.Marshal` of the envelope; when `Route` and `QueueType` are valid UTF-8, then
for every byte sequence `Message` (nil, empty, non-text) these bytes decode to an
envelope with `MessageType = "EPMessage"`, `Route`, `Type = QueueType` and a
`Body` equal to `Message`; for `("orders", []byte("hello"), "P2P")` the decoded
envelope has `Route` "orders", `Type` "P2P" and `Body` "hello". -/
theorem DeliverMessage_writes_envelope (ch : Channel) (w : World) (a : Nat) (c : NetConn)
    (hp : ch.conn = some a) (hc : w.conns[a]? = some c) (hf : c.fault = none)
    (Route : GoString) (Message : Option (List Nat)) (QueueType : GoString)
    (hM : ∀ b, Message = some b → ∀ x ∈ b, x < 256) :
    ch.DeliverMessage json Route Message QueueType w =
      (.returned none,
        (w.logPrintln (goString "Delivering Message")).setConn a
          { c with wire := c.wire ++
                    MarshalEPMessage ⟨goString "EPMessage", Route, QueueType, Message⟩ }) ∧
    (ValidString Route = true → ValidString QueueType = true →
      UnmarshalEPMessage (MarshalEPMessage ⟨goString "EPMessage", Route, QueueType, Message⟩) =
        some ⟨goString "EPMessage", Route, QueueType, Message⟩) ∧
    UnmarshalEPMessage (MarshalEPMessage ⟨goString "EPMessage", goString "orders",
        goString "P2P", some (goString "hello")⟩) =
      some ⟨goString "EPMessage", goString "orders", goString "P2P",
        some (goString "hello")⟩ :=
  ⟨DeliverMessage_of_healthy ch Route Message QueueType w a c hp hc hf,
    fun hR hT => UnmarshalEPMessage_MarshalEPMessage _
      (show ValidString (goString "EPMessage") = true by decide) hR hT hM, by decide⟩

/-- The amended C2 at a concrete input: a body of the non-text bytes 0, 255, 254. -/
theorem DeliverMessage_writes_envelope_witness :
    (({ StreamID := goString "s", BoundTo := [], conn := some 0 } : Channel).DeliverMessage
        json (goString "orders") (some [0, 255, 254]) (goString "P2P")
        ⟨[⟨[], none⟩], [], [], []⟩).1 = .returned none ∧
    UnmarshalEPMessage (MarshalEPMessage ⟨goString "EPMessage", goString "orders",
        goString "P2P", some [0, 255, 254]⟩)
      = some ⟨goString "EPMessage", goString "orders", goString "P2P", some [0, 255, 254]⟩ :=
  ⟨congrArg Prod.fst (DeliverMessage_writes_envelope ⟨goString "s", [], some 0⟩
      ⟨[⟨[], none⟩], [], [], []⟩ 0 ⟨[], none⟩ rfl rfl rfl (goString "orders")
      (some [0, 255, 254]) (goString "P2P") (by intro b hb; cases hb; decide)).1,
    (DeliverMessage_writes_envelope ⟨goString "s", [], some 0⟩
      ⟨[⟨[], none⟩], [], [], []⟩ 0 ⟨[], none⟩ rfl rfl rfl (goString "orders")
      (some [0, 255, 254]) (goString "P2P") (by intro b hb; cases hb; decide)).2.1 (by decide) (by decide)⟩

/-! ## Channel creation -/

/-- C7: `CreateChannel` never fails: in every state it returns `(ch, nil)`, where
`ch.StreamID` is the newly generated identifier, `ch.BoundTo` is the empty string
and `ch.conn` is the caller's connection reference (the same pointer). -/
theorem CreateChannel_never_fails (c : connection) (newStreamID : GoString) (w : World) :
    ∃ ch : Channel, (c.CreateChannel newStreamID w).1 = (ch, none) ∧
      ch.StreamID = newStreamID ∧ ch.BoundTo = [] ∧ ch.conn = c.conn :=
  ⟨{ StreamID := newStreamID, BoundTo := [], conn := c.conn }, rfl, rfl, rfl, rfl⟩

/-! ## Failures of the write path -/

/-- C8: if `json.Marshal` fails, no write is attempted: `AssertQueue` returns the
marshalling error with the empty queue name, `DeliverMessage` returns the
marshalling error, and every transport holds exactly the bytes it held before. -/
theorem marshal_failure_writes_nothing (lib : JSONPackage) (ch : Channel) (w : World)
    (Name Typ : GoString) (Durable : Bool)
    (Route : GoString) (Message : Option (List Nat)) (QueueType : GoString) :
    (∀ err, lib.MarshalQueue ⟨goString "Queue", Name, Typ, Durable⟩ = .error err →
      (ch.AssertQueue lib Name Typ Durable w).1 = .returned ([], some err) ∧
      (ch.AssertQueue lib Name Typ Durable w).2.conns = w.conns) ∧
    (∀ err, lib.MarshalEPMessage ⟨goString "EPMessage", Route, QueueType, Message⟩ = .error err →
      (ch.DeliverMessage lib Route Message QueueType w).1 = .returned (some err) ∧
      (ch.DeliverMessage lib Route Message QueueType w).2.conns = w.conns) := by
  refine ⟨fun err h => ?_, fun err h => ?_⟩
  · simp [Channel.AssertQueue, h, World.printf]
  · simp [Channel.DeliverMessage, h, World.logPrintln]

/-- C8 at a concrete input: a channel on a healthy transport that already carries
the bytes 1, 2, 3, and a `Marshal` that fails. -/
theorem marshal_failure_writes_nothing_witness :
    (({ StreamID := goString "s", BoundTo := [], conn := some 0 } : Channel).AssertQueue
        failingJSON (goString "orders") (goString "P2P") true
        ⟨[⟨[1, 2, 3], none⟩], [], [], []⟩).1
      = .returned ([], some (.errorString "json: unsupported value")) ∧
    (({ StreamID := goString "s", BoundTo := [], conn := some 0 } : Channel).AssertQueue
        failingJSON (goString "orders") (goString "P2P") true
        ⟨[⟨[1, 2, 3], none⟩], [], [], []⟩).2.conns = [⟨[1, 2, 3], none⟩] :=
  (marshal_failure_writes_nothing failingJSON ⟨goString "s", [], some 0⟩
    ⟨[⟨[1, 2, 3], none⟩], [], [], []⟩ (goString "orders") (goString "P2P") true
    (goString "orders") none (goString "P2P")).1 _ rfl

/-- C3: if the transport is closed, so that `Write` reports an end-of-stream error,
then for all arguments `AssertQueue` returns that end-of-stream error with the
empty queue name and `DeliverMessage` returns that end-of-stream error: neither
returns nil. -/
theorem closed_transport_reports_closed (ch : Channel) (w : World)
    (a : Nat) (c : NetConn) (n : Nat) (err : GoError)
    (hp : ch.conn = some a) (hc : w.conns[a]? = some c) (hf : c.fault = some (n, err))
    (heof : errors.Is (some err) (some GoError.EOF) = true)
    (Name Typ : GoString) (Durable : Bool)
    (Route : GoString) (Message : Option (List Nat)) (QueueType : GoString) :
    (∃ e, (ch.AssertQueue json Name Typ Durable w).1 = .returned ([], some e) ∧
      errors.Is (some e) (some GoError.EOF) = true) ∧
    (∃ e, (ch.DeliverMessage json Route Message QueueType w).1 = .returned (some e) ∧
      errors.Is (some e) (some GoError.EOF) = true) := by
  rw [AssertQueue_of_fault ch Name Typ Durable w a c n err hp hc hf,
    DeliverMessage_of_fault ch Route Message QueueType w a c n err hp hc hf]
  exact ⟨⟨err, rfl, heof⟩, ⟨err, rfl, heof⟩⟩

/-- C3 at a concrete input: a transport whose `Write` reports an `io.EOF` wrapped
in a `write` error. -/
theorem closed_transport_reports_closed_witness :
    (∃ e, (({ StreamID := goString "s", BoundTo := [], conn := some 0 } : Channel).AssertQueue
        json (goString "orders") (goString "P2P") true
        ⟨[⟨[], some (0, .wrapError "write" .EOF)⟩], [], [], []⟩).1 = .returned ([], some e) ∧
      errors.Is (some e) (some GoError.EOF) = true) ∧
    (∃ e, (({ StreamID := goString "s", BoundTo := [], conn := some 0 } : Channel).DeliverMessage
        json (goString "orders") (some (goString "hello")) (goString "P2P")
        ⟨[⟨[], some (0, .wrapError "write" .EOF)⟩], [], [], []⟩).1 = .returned (some e) ∧
      errors.Is (some e) (some GoError.EOF) = true) :=
  closed_transport_reports_closed ⟨goString "s", [], some 0⟩
    ⟨[⟨[], some (0, .wrapError "write" .EOF)⟩], [], [], []⟩ 0
    ⟨[], some (0, .wrapError "write" .EOF)⟩ 0 (.wrapError "write" .EOF) rfl rfl rfl (by decide)
    (goString "orders") (goString "P2P") true (goString "orders") (some (goString "hello"))
    (goString "P2P")

/-- C4, as stated, fails: two different write errors that are not end-of-stream
(`broken pipe` and `i/o timeout`) make `AssertQueue` return two different errors,
and likewise `DeliverMessage`. -/
theorem write_errors_stay_distinct :
    errors.Is (some (.errorString "broken pipe")) (some GoError.EOF) = false ∧
    errors.Is (some (.errorString "i/o timeout")) (some GoError.EOF) = false ∧
    (({ StreamID := goString "s", BoundTo := [], conn := some 0 } : Channel).AssertQueue
        json (goString "orders") (goString "P2P") true
        ⟨[⟨[], some (0, .errorString "broken pipe")⟩], [], [], []⟩).1
      = .returned ([], some (.errorString "broken pipe")) ∧
    (({ StreamID := goString "s", BoundTo := [], conn := some 0 } : Channel).AssertQueue
        json (goString "orders") (goString "P2P") true
        ⟨[⟨[], some (0, .errorString "i/o timeout")⟩], [], [], []⟩).1
      = .returned ([], some (.errorString "i/o timeout")) ∧
    (({ StreamID := goString "s", BoundTo := [], conn := some 0 } : Channel).DeliverMessage
        json (goString "orders") (some (goString "hello")) (goString "P2P")
        ⟨[⟨[], some (0, .errorString "broken pipe")⟩], [], [], []⟩).1
      ≠ (({ StreamID := goString "s", BoundTo := [], conn := some 0 } : Channel).DeliverMessage
        json (goString "orders") (some (goString "hello")) (goString "P2P")
        ⟨[⟨[], some (0, .errorString "i/o timeout")⟩], [], [], []⟩).1 := by
  decide

/-- C4, amended: when the transport's `Write` fails with `err`, `AssertQueue`
returns the empty name with `err` itself and `DeliverMessage` returns `err`
itself; the two tiers differ in the line printed on standard output, which is
`ERROR: connection was closed` if `err` is an end-of-stream error and
`ERROR: Unable to write to message broker` otherwise. -/
theorem write_failure_two_tiers (ch : Channel) (w : World)
    (a : Nat) (c : NetConn) (n : Nat) (err : GoError)
    (hp : ch.conn = some a) (hc : w.conns[a]? = some c) (hf : c.fault = some (n, err))
    (Name Typ : GoString) (Durable : Bool)
    (Route : GoString) (Message : Option (List Nat)) (QueueType : GoString) :
    (ch.AssertQueue json Name Typ Durable w).1 = .returned ([], some err) ∧
    (ch.DeliverMessage json Route Message QueueType w).1 = .returned (some err) ∧
    (ch.AssertQueue json Name Typ Durable w).2.stdout = w.stdout ++
      [if errors.Is (some err) (some GoError.EOF) then goString "ERROR: connection was closed"
        else goString "ERROR: Unable to write to message broker"] ∧
    (ch.DeliverMessage json Route Message QueueType w).2.stdout = w.stdout ++
      [if errors.Is (some err) (some GoError.EOF) then goString "ERROR: connection was closed"
        else goString "ERROR: Unable to write to message broker"] := by
  rw [AssertQueue_of_fault ch Name Typ Durable w a c n err hp hc hf,
    DeliverMessage_of_fault ch Route Message QueueType w a c n err hp hc hf]
  simp [World.printf, World.setConn, World.logPrintln]

/-- The amended C4 at a concrete input: a write that fails with `broken pipe`. -/
theorem write_failure_two_tiers_witness :
    (({ StreamID := goString "s", BoundTo := [], conn := some 0 } : Channel).AssertQueue
        json (goString "orders") (goString "P2P") true
        ⟨[⟨[], some (0, .errorString "broken pipe")⟩], [], [], []⟩).1
      = .returned ([], some (.errorString "broken pipe")) :=
  (write_failure_two_tiers ⟨goString "s", [], some 0⟩
    ⟨[⟨[], some (0, .errorString "broken pipe")⟩], [], [], []⟩ 0
    ⟨[], some (0, .errorString "broken pipe")⟩ 0 (.errorString "broken pipe") rfl rfl rfl
    (goString "orders") (goString "P2P") true (goString "orders") (some (goString "hello"))
    (goString "P2P")).1

/-! ## The stream registry -/

theorem Call_run_pool_persist (lib : JSONPackage) (call : Call) (w : World)
    (k : GoString) (v : Channel) (h : mapIndex w.STREAM_POOL k = some v) :
    mapIndex (call.run lib w).STREAM_POOL k = some v := by
  cases call with
  | CreateChannel c newStreamID =>
    simp only [Call.run, CreateChannel_pool]
    split
    · exact h
    · exact mapIndex_append_of_some _ _ _ _ h
  | AssertQueue ch Name Typ Durable => simpa [Call.run, AssertQueue_pool] using h
  | DeliverMessage ch Route Message QueueType =>
    simpa [Call.run, DeliverMessage_pool] using h
  | Consume ch => exact h
  | CloseChannel ch => exact h

/-- C9: registry entries are never removed or replaced: whatever the call
(`CreateChannel`, `AssertQueue`, `DeliverMessage`, `Consume`, `CloseChannel`), a
key of `STREAM_POOL` before the call is a key afterwards and maps to the same
entry. `CreateChannel` adds at most one key (the generated identifier) and leaves
the registry as it is when that identifier is already a key; `Consume` and
`CloseChannel` change nothing at all. -/
theorem registry_entries_persist (lib : JSONPackage) (w : World) :
    (∀ (call : Call) (k : GoString) (v : Channel), mapIndex w.STREAM_POOL k = some v →
      mapIndex (call.run lib w).STREAM_POOL k = some v) ∧
    (∀ (c : connection) (newStreamID : GoString),
      (c.CreateChannel newStreamID w).2.STREAM_POOL.length ≤ w.STREAM_POOL.length + 1 ∧
      (∀ k ∈ mapKeys (c.CreateChannel newStreamID w).2.STREAM_POOL,
        k ∈ mapKeys w.STREAM_POOL ∨ k = newStreamID) ∧
      ((mapIndex w.STREAM_POOL newStreamID).isSome = true →
        (c.CreateChannel newStreamID w).2.STREAM_POOL = w.STREAM_POOL)) ∧
    (∀ ch : Channel, ch.Consume w = w ∧ ch.CloseChannel w = w) := by
  refine ⟨fun call k v h => Call_run_pool_persist lib call w k v h, fun c id => ?_,
    fun ch => ⟨rfl, rfl⟩⟩
  rw [CreateChannel_pool]
  by_cases hp : (mapIndex w.STREAM_POOL id).isSome = true
  · rw [if_pos hp]
    exact ⟨Nat.le_succ _, fun k hk => Or.inl hk, fun _ => rfl⟩
  · rw [if_neg hp]
    refine ⟨by simp, fun k hk => ?_, fun h => absurd h hp⟩
    simpa [mapKeys] using hk

/-- C9 at a concrete input: the registry holds one channel under the key `a`, and
`CreateChannel` generates `a` again, on another connection: the entry stays. -/
theorem registry_entries_persist_witness :
    mapIndex (Call.run json (.CreateChannel ⟨some 1⟩ (goString "a"))
        ⟨[], [(goString "a", ⟨goString "a", [], some 0⟩)], [], []⟩).STREAM_POOL (goString "a")
      = some ⟨goString "a", [], some 0⟩ :=
  (registry_entries_persist json
    ⟨[], [(goString "a", ⟨goString "a", [], some 0⟩)], [], []⟩).1
    (.CreateChannel ⟨some 1⟩ (goString "a")) (goString "a") ⟨goString "a", [], some 0⟩
    (by decide)

theorem AssertQueue_conns_frame (lib : JSONPackage) (ch : Channel) (Name Typ : GoString)
    (Durable : Bool) (w : World) (a : Nat) (ha : ch.conn ≠ some a) :
    (ch.AssertQueue lib Name Typ Durable w).2.conns[a]? = w.conns[a]? := by
  unfold Channel.AssertQueue
  simp only [World.printf, World.setConn]
  split
  · rfl
  · split
    · rfl
    · rename_i a1 c1 hd
      have hne : a1 ≠ a := by
        intro h
        cases hc : ch.conn with
        | none => simp [deref, hc] at hd
        | some p =>
          simp only [deref, hc, Option.map_eq_some'] at hd
          obtain ⟨_, _, h2⟩ := hd
          simp only [Prod.mk.injEq] at h2
          exact ha (by rw [hc, h2.1, h])
      split
      · simp [List.getElem?_set, hne]
      · split <;> simp [List.getElem?_set, hne]

theorem DeliverMessage_conns_frame (lib : JSONPackage) (ch : Channel) (Route : GoString)
    (Message : Option (List Nat)) (QueueType : GoString) (w : World) (a : Nat)
    (ha : ch.conn ≠ some a) :
    (ch.DeliverMessage lib Route Message QueueType w).2.conns[a]? = w.conns[a]? := by
  unfold Channel.DeliverMessage
  simp only [World.printf, World.setConn, World.logPrintln]
  split
  · rfl
  · split
    · rfl
    · rename_i a1 c1 hd
      have hne : a1 ≠ a := by
        intro h
        cases hc : ch.conn with
        | none => simp [deref, hc] at hd
        | some p =>
          simp only [deref, hc, Option.map_eq_some'] at hd
          obtain ⟨_, _, h2⟩ := hd
          simp only [Prod.mk.injEq] at h2
          exact ha (by rw [hc, h2.1, h])
      split
      · simp [List.getElem?_set, hne]
      · split <;> simp [List.getElem?_set, hne]

/-- C10: `AssertQueue` and `DeliverMessage` change nothing but the transport they
write to (and the diagnostic output): whatever the arguments and whether the call
succeeds, fails or panics, `STREAM_POOL` is the same afterwards, so every
registered channel keeps its `StreamID` and `BoundTo`, and every other transport
is untouched. The receiver is passed by value, so the caller's `Channel` is the
same value after the call: for a channel returned by `CreateChannel`, `BoundTo` is
the empty string after `AssertQueue`, and with a fresh identifier the registry
entry of the channel is still that channel, with an empty `BoundTo`. -/
theorem write_calls_change_only_transport (lib : JSONPackage) (ch : Channel) (w : World)
    (Name Typ : GoString) (Durable : Bool)
    (Route : GoString) (Message : Option (List Nat)) (QueueType : GoString) :
    (ch.AssertQueue lib Name Typ Durable w).2.STREAM_POOL = w.STREAM_POOL ∧
    (ch.DeliverMessage lib Route Message QueueType w).2.STREAM_POOL = w.STREAM_POOL ∧
    (∀ a, ch.conn ≠ some a →
      (ch.AssertQueue lib Name Typ Durable w).2.conns[a]? = w.conns[a]? ∧
      (ch.DeliverMessage lib Route Message QueueType w).2.conns[a]? = w.conns[a]?) ∧
    (∀ (c : connection) (newStreamID : GoString),
      (c.CreateChannel newStreamID w).1.1.BoundTo = [] ∧
      (c.CreateChannel newStreamID w).1.1.StreamID = newStreamID ∧
      (((c.CreateChannel newStreamID w).1.1.AssertQueue lib Name Typ Durable
          (c.CreateChannel newStreamID w).2).2.STREAM_POOL
        = (c.CreateChannel newStreamID w).2.STREAM_POOL) ∧
      (mapIndex w.STREAM_POOL newStreamID = none →
        mapIndex ((c.CreateChannel newStreamID w).1.1.AssertQueue lib Name Typ Durable
          (c.CreateChannel newStreamID w).2).2.STREAM_POOL newStreamID
        = some { StreamID := newStreamID, BoundTo := [], conn := c.conn })) := by
  refine ⟨AssertQueue_pool _ _ _ _ _ _, DeliverMessage_pool _ _ _ _ _ _, fun a ha =>
    ⟨AssertQueue_conns_frame _ _ _ _ _ _ a ha, DeliverMessage_conns_frame _ _ _ _ _ _ a ha⟩,
    fun c id => ⟨rfl, rfl, AssertQueue_pool _ _ _ _ _ _, fun hnone => ?_⟩⟩
  rw [AssertQueue_pool, CreateChannel_pool]
  simp only [hnone, Option.isSome_none, Bool.false_eq_true, if_false]
  have hk : id ∉ mapKeys w.STREAM_POOL := (mapIndex_eq_none_iff _ _).1 hnone
  unfold mapIndex
  rw [List.find?_append]
  have hf : List.find? (fun e => decide (e.1 = id)) w.STREAM_POOL = none := by
    simpa [mapIndex] using hnone
  simp [hf]

/-- C10 at a concrete input: a channel created with a fresh identifier on a
healthy transport, then a successful `AssertQueue("orders", "P2P", true)`: the
registry entry of the channel still has an empty `BoundTo`. -/
theorem write_calls_change_only_transport_witness :
    mapIndex (((connection.mk (some 0)).CreateChannel (goString "id-1")
        ⟨[⟨[], none⟩], [], [], []⟩).1.1.AssertQueue json (goString "orders") (goString "P2P")
        true ((connection.mk (some 0)).CreateChannel (goString "id-1")
        ⟨[⟨[], none⟩], [], [], []⟩).2).2.STREAM_POOL (goString "id-1")
      = some { StreamID := goString "id-1", BoundTo := [], conn := some 0 } :=
  (write_calls_change_only_transport json ⟨goString "x", [], none⟩ ⟨[⟨[], none⟩], [], [], []⟩
    (goString "orders") (goString "P2P") true (goString "orders") none (goString "P2P")).2.2.2
    ⟨some 0⟩ (goString "id-1") |>.2.2.2 rfl

/-! ## Sequences of `CreateChannel` calls -/

theorem CreateChannel_keys (c : connection) (k : GoString) (w : World) :
    mapKeys (c.CreateChannel k w).2.STREAM_POOL =
      if k ∈ mapKeys w.STREAM_POOL then mapKeys w.STREAM_POOL
      else mapKeys w.STREAM_POOL ++ [k] := by
  rw [CreateChannel_pool]
  by_cases h : k ∈ mapKeys w.STREAM_POOL
  · have h2 : (mapIndex w.STREAM_POOL k).isSome = true := by
      cases hm : mapIndex w.STREAM_POOL k with
      | none => exact absurd h ((mapIndex_eq_none_iff _ _).1 hm)
      | some v => rfl
    rw [if_pos h2, if_pos h]
  · have h2 : mapIndex w.STREAM_POOL k = none := (mapIndex_eq_none_iff _ _).2 h
    rw [if_neg h]
    simp [h2, mapKeys]

theorem createChannels_ids (c : connection) (ids : List GoString) (w : World) :
    (createChannels c ids w).1 =
      ids.map (fun k => ({ StreamID := k, BoundTo := [], conn := c.conn } : Channel)) := by
  induction ids generalizing w with
  | nil => rfl
  | cons k ids ih =>
    simp only [createChannels, List.map_cons, ih]
    rfl

theorem createChannels_mem_keys (c : connection) (ids : List GoString) (w : World)
    (k : GoString) :
    k ∈ mapKeys (createChannels c ids w).2.STREAM_POOL ↔ k ∈ mapKeys w.STREAM_POOL ∨ k ∈ ids := by
  induction ids generalizing w with
  | nil => simp [createChannels]
  | cons i ids ih =>
    simp only [createChannels, ih, CreateChannel_keys, List.mem_cons]
    by_cases h : i ∈ mapKeys w.STREAM_POOL
    · rw [if_pos h]
      constructor
      · rintro (h1 | h1)
        · exact Or.inl h1
        · exact Or.inr (Or.inr h1)
      · rintro (h1 | h1 | h1)
        · exact Or.inl h1
        · exact Or.inl (h1 ▸ h)
        · exact Or.inr h1
    · rw [if_neg h]
      simp only [List.mem_append, List.mem_singleton]
      tauto

theorem createChannels_keys_nodup (c : connection) (ids : List GoString) (w : World)
    (h : (mapKeys w.STREAM_POOL).Nodup) :
    (mapKeys (createChannels c ids w).2.STREAM_POOL).Nodup := by
  induction ids generalizing w with
  | nil => simpa [createChannels] using h
  | cons i ids ih =>
    simp only [createChannels]
    apply ih
    rw [CreateChannel_keys]
    by_cases hi : i ∈ mapKeys w.STREAM_POOL
    · rw [if_pos hi]; exact h
    · rw [if_neg hi]
      exact List.Nodup.append h (List.nodup_singleton i) (by simpa using hi)

theorem createChannels_pool_of_fresh (c : connection) (ids : List GoString) (w : World)
    (hn : ids.Nodup) (hf : ∀ k ∈ ids, k ∉ mapKeys w.STREAM_POOL) :
    (createChannels c ids w).2.STREAM_POOL = w.STREAM_POOL ++
      ids.map (fun k => (k, ({ StreamID := k, BoundTo := [], conn := c.conn } : Channel))) := by
  induction ids generalizing w with
  | nil => simp [createChannels]
  | cons i ids ih =>
    have hi : mapIndex w.STREAM_POOL i = none :=
      (mapIndex_eq_none_iff _ _).2 (hf i (List.mem_cons_self _ _))
    have hn2 := List.nodup_cons.1 hn
    simp only [createChannels]
    rw [ih _ hn2.2]
    · rw [CreateChannel_pool]
      simp [hi]
    · intro k hk
      rw [CreateChannel_keys]
      have hki : k ≠ i := fun h => hn2.1 (h ▸ hk)
      have hkw := hf k (List.mem_cons_of_mem _ hk)
      by_cases h : i ∈ mapKeys w.STREAM_POOL
      · rw [if_pos h]; exact hkw
      · rw [if_neg h]; simp [hkw, hki]

/-- C5: for every sequence of `CreateChannel` calls on one connection that starts
from an empty registry: the n-th channel returned carries the n-th generated
identifier; the keys of the registry are pairwise distinct and are exactly the
identifiers generated so far (an identifier generated twice has one entry).
When the generated identifiers are pairwise distinct, the returned channels have
pairwise distinct `StreamID`s, and the registry holds exactly one entry per call,
keyed by the returned `StreamID`s and holding the returned channels, without any
limit on their number (`MAX_STREAMS` is not consulted). -/
theorem createChannels_registry (c : connection) (ids : List GoString) (w : World)
    (hw : w.STREAM_POOL = []) :
    (createChannels c ids w).1.map (fun ch => ch.StreamID) = ids ∧
    (mapKeys (createChannels c ids w).2.STREAM_POOL).Nodup ∧
    (∀ k, k ∈ mapKeys (createChannels c ids w).2.STREAM_POOL ↔ k ∈ ids) ∧
    (ids.Nodup →
      ((createChannels c ids w).1.map (fun ch => ch.StreamID)).Nodup ∧
      (createChannels c ids w).2.STREAM_POOL.length = ids.length ∧
      (createChannels c ids w).2.STREAM_POOL =
        (createChannels c ids w).1.map (fun ch => (ch.StreamID, ch))) := by
  have h1 : (createChannels c ids w).1.map (fun ch => ch.StreamID) = ids := by
    rw [createChannels_ids, List.map_map]
    exact List.map_id _
  refine ⟨h1, createChannels_keys_nodup c ids w (by simp [hw, mapKeys]), fun k => ?_,
    fun hn => ⟨h1.symm ▸ hn, ?_, ?_⟩⟩
  · rw [createChannels_mem_keys]
    simp [hw, mapKeys]
  · rw [createChannels_pool_of_fresh c ids w hn (by simp [hw, mapKeys])]
    simp [hw]
  · rw [createChannels_pool_of_fresh c ids w hn (by simp [hw, mapKeys]), createChannels_ids]
    simp [hw, Function.comp_def]

/-- C5 at a concrete input: four calls (more than `MAX_STREAMS`) that generate four
distinct identifiers leave four entries in the registry. -/
theorem createChannels_registry_witness :
    MAX_STREAMS < 4 ∧
    (createChannels ⟨some 0⟩ [goString "a", goString "b", goString "c", goString "d"]
      ⟨[⟨[], none⟩], [], [], []⟩).2.STREAM_POOL.length = 4 :=
  ⟨by decide,
    ((createChannels_registry ⟨some 0⟩ [goString "a", goString "b", goString "c", goString "d"]
      ⟨[⟨[], none⟩], [], [], []⟩ rfl).2.2.2 (by decide)).2.1⟩

/-! ## Connection bootstrap -/

theorem Boot.reachable_cases (net : Network) (address : GoString) (w : World) (s : Boot)
    (h : Boot.Reachable net address w s) :
    s = Boot.init w ∨
    s = { caller := .atSelect, task := some .atDial, sentConn := 0, sentStopped := 0,
          world := w } ∨
    (∃ e, net address = .error e ∧
      (s = { caller := .atSelect, task := some .atSendStopped, sentConn := 0,
             sentStopped := 0, world := w } ∨
       s = { caller := .returned { conn := none } (some (.errorString
               "Unable to create a TCP connection with the message broker")),
             task := some .finished, sentConn := 0, sentStopped := 1, world := w })) ∨
    (∃ t, net address = .ok t ∧
      (s = { caller := .atSelect, task := some (.atLog t), sentConn := 0, sentStopped := 0,
             world := w } ∨
       s = { caller := .atSelect, task := some (.atSendConn t), sentConn := 0,
             sentStopped := 0,
             world := w.logPrintln
               (goString "Successfully Connected to message broker on " ++ address) } ∨
       s = { caller := .returned { conn := some w.conns.length } none,
             task := some .finished, sentConn := 1, sentStopped := 0,
             world := { w.logPrintln
               (goString "Successfully Connected to message broker on " ++ address) with
               conns := w.conns ++ [t] } })) := by
  induction h with
  | init => exact Or.inl rfl
  | @step s s1 _ hmem ih =>
    rcases ih with h | h | ⟨e, he, h | h⟩ | ⟨t, ht, h | h | h⟩
    · subst h
      simp [Boot.next, Boot.callerSteps, Boot.taskSteps, Boot.init] at hmem
      exact Or.inr (Or.inl hmem)
    · subst h
      cases hn : net address with
      | error e =>
        simp [Boot.next, Boot.callerSteps, Boot.taskSteps, hn] at hmem
        exact Or.inr (Or.inr (Or.inl ⟨e, rfl, Or.inl hmem⟩))
      | ok t =>
        simp [Boot.next, Boot.callerSteps, Boot.taskSteps, hn] at hmem
        exact Or.inr (Or.inr (Or.inr ⟨t, rfl, Or.inl hmem⟩))
    · subst h
      simp [Boot.next, Boot.callerSteps, Boot.taskSteps] at hmem
      exact Or.inr (Or.inr (Or.inl ⟨e, he, Or.inr hmem⟩))
    · subst h
      simp [Boot.next, Boot.callerSteps, Boot.taskSteps] at hmem
    · subst h
      simp [Boot.next, Boot.callerSteps, Boot.taskSteps] at hmem
      exact Or.inr (Or.inr (Or.inr ⟨t, ht, Or.inr (Or.inl hmem)⟩))
    · subst h
      simp [Boot.next, Boot.callerSteps, Boot.taskSteps] at hmem
      exact Or.inr (Or.inr (Or.inr ⟨t, ht, Or.inr (Or.inr hmem)⟩))
    · subst h
      simp [Boot.next, Boot.callerSteps, Boot.taskSteps] at hmem

theorem Connect_of_dial_error (net : Network) (address : GoString) (w : World) (e : GoError)
    (he : net address = .error e) :
    Connect net address w = some (({ conn := none }, some (.errorString
      "Unable to create a TCP connection with the message broker")), w) := by
  simp [Connect, Boot.run, Boot.next, Boot.callerSteps, Boot.taskSteps, Boot.init, he]

theorem Connect_of_dial_ok (net : Network) (address : GoString) (w : World) (t : NetConn)
    (ht : net address = .ok t) :
    Connect net address w = some (({ conn := some w.conns.length }, none),
      { w.logPrintln (goString "Successfully Connected to message broker on " ++ address) with
        conns := w.conns ++ [t] }) := by
  simp [Connect, Boot.run, Boot.next, Boot.callerSteps, Boot.taskSteps, Boot.init, ht,
    World.logPrintln]

/-- C6: `Connect(address)` ends in exactly one of two outcomes, decided by the one
dial. It always returns. If the dial fails it returns the zero `connection` (nil
transport) with a non-nil error and leaves the state as it was; if the dial
succeeds it returns a nil error and a `connection` pointing to a new heap cell
that holds the transport the dial established. Never both a transport and an
error, never neither. In every state of every run the goroutine has completed at
most one send over both channels, every step brings the run closer to its end, a
run can only stop when `Connect` has returned, and what it has returned is the
outcome above. -/
theorem Connect_two_outcomes (net : Network) (address : GoString) (w : World) :
    ∃ r : (connection × Option GoError) × World, Connect net address w = some r ∧
      (match net address with
        | .error _ => r.1.1.conn = none ∧ r.1.2 ≠ none ∧ r.2 = w
        | .ok t => r.1.2 = none ∧ r.1.1.conn = some w.conns.length ∧
            r.2.conns = w.conns ++ [t] ∧ deref r.1.1.conn r.2 = some (w.conns.length, t)) ∧
      (r.1.1.conn = none ∨ r.1.2 = none) ∧ (r.1.1.conn ≠ none ∨ r.1.2 ≠ none) ∧
      ∀ s, Boot.Reachable net address w s →
        s.sentConn + s.sentStopped ≤ 1 ∧
        (∀ s1 ∈ s.next net address, s1.rank < s.rank) ∧
        (s.next net address = [] → ∃ c err, s.caller = .returned c err) ∧
        (∀ c err, s.caller = .returned c err → (c, err) = r.1 ∧ s.world = r.2) := by
  cases hn : net address with
  | error e =>
    refine ⟨_, Connect_of_dial_error net address w e hn, ⟨rfl, by simp, rfl⟩, Or.inl rfl,
      Or.inr (by simp), fun s hs => ?_⟩
    rcases Boot.reachable_cases net address w s hs with h | h | ⟨e1, _, h | h⟩ | ⟨t, ht, _⟩
    · subst h
      simp [Boot.next, Boot.callerSteps, Boot.taskSteps, Boot.init, Boot.rank]
    · subst h
      simp [Boot.next, Boot.callerSteps, Boot.taskSteps, Boot.rank, hn]
    · subst h
      simp [Boot.next, Boot.callerSteps, Boot.taskSteps, Boot.rank]
    · subst h
      simp [Boot.next, Boot.callerSteps, Boot.taskSteps, Boot.rank]
    · rw [hn] at ht
      cases ht
  | ok t =>
    refine ⟨_, Connect_of_dial_ok net address w t hn, ⟨rfl, rfl, rfl, ?_⟩, Or.inr rfl,
      Or.inl (by simp), fun s hs => ?_⟩
    · simp [deref, World.logPrintln]
    rcases Boot.reachable_cases net address w s hs with h | h | ⟨e, he, _⟩ | ⟨t1, ht, h⟩
    · subst h
      simp [Boot.next, Boot.callerSteps, Boot.taskSteps, Boot.init, Boot.rank]
    · subst h
      simp [Boot.next, Boot.callerSteps, Boot.taskSteps, Boot.rank, hn]
    · rw [hn] at he
      cases he
    · rw [hn] at ht
      cases ht
      rcases h with h | h | h
      · subst h
        simp [Boot.next, Boot.callerSteps, Boot.taskSteps, Boot.rank]
      · subst h
        simp [Boot.next, Boot.callerSteps, Boot.taskSteps, Boot.rank]
      · subst h
        simp [Boot.next, Boot.callerSteps, Boot.taskSteps, Boot.rank, World.logPrintln]

/-- C6 at a concrete input: no broker listens on `localhost:1`, the dial fails,
and `Connect` returns no transport and an error. -/
theorem Connect_two_outcomes_witness :
    ∃ r : (connection × Option GoError) × World,
      Connect (fun _ => .error (.errorString "connection refused")) (goString "localhost:1")
        ⟨[], [], [], []⟩ = some r ∧ r.1.1.conn = none ∧ r.1.2 ≠ none :=
  (Connect_two_outcomes (fun _ => .error (.errorString "connection refused"))
    (goString "localhost:1") ⟨[], [], [], []⟩).elim
    (fun r h => ⟨r, h.1, h.2.1.1, h.2.1.2.1⟩)

end Msbq
